import Mathlib

/-!
# Verification of the sg-spec OTA bundle pipeline

A shallow embedding of the OTA bundle construction and verification code of
the sg-spec repository (`sg_spec/ai/coach/cli.py`, `pack_set_policy.py`,
`dance_pack.py`), together with theorems settling the specification claims
about it.

Conventions of the embedding:

* JSON documents are represented by the inductive `JVal`; a JSON object is an
  association list of key/value pairs in the order the source constructs it.
* Filesystem paths are lists of components (`Path`).  The filesystem is an
  explicit state (`Fs`): an association list of files (newest first, so a
  rewrite shadows the older entry, as on a real filesystem), a list of
  directories that exist, and a list of created zip archives, each archive
  holding a snapshot of the directory it was made from.
* Python functions returning normally become Lean functions; Python
  exceptions become `Except` errors (`PyError`).
* Collaborators that live outside the embedded modules (the YAML pack/pack-set
  registries, file reads, hashing) are passed in explicitly as `CliEnv`.
-/

namespace SgSpec

/-- A JSON value.  Objects keep their fields as an association list in
construction order (`json.dumps(..., sort_keys=True)` only affects the
serialized key order, not which keys are present). -/
inductive JVal where
  | jnull : JVal
  | jbool : Bool → JVal
  | jnum : Rat → JVal
  | jstr : String → JVal
  | jarr : List JVal → JVal
  | jobj : List (String × JVal) → JVal
deriving Repr, Inhabited

/-- Field lookup in an association list of JSON object fields. -/
def lookupKey : List (String × JVal) → String → Option JVal
  | [], _ => none
  | (k, v) :: rest, key => if key = k then some v else lookupKey rest key

/-- `obj["key"]`-style access on a `JVal`; `none` when the value is not an
object or lacks the key. -/
def jlookup : JVal → String → Option JVal
  | JVal.jobj fields, key => lookupKey fields key
  | _, _ => none

/-- A filesystem path, as a list of components relative to some root. -/
abbrev Path := List String

/-- Render a path the way `str(Path(...))` renders a relative path. -/
def pathStr : Path → String
  | [] => ""
  | [c] => c
  | c :: rest => c ++ "/" ++ pathStr rest

/-- `Path.relative_to(base)`: drop the leading `base` components. -/
def relativeTo (base p : Path) : Path := p.drop base.length

/-- `Path.parent`: drop the final component. -/
def pathParent (p : Path) : Path := p.dropLast

section FindBundleRoot

/-! ## `_find_bundle_root` (cli.py lines 77-93)

The verifier's root-discovery rule.  The extracted tree is given as the list
of file paths relative to `extract_dir`; `rglob("manifest.json")` returns the
files whose name is exactly `manifest.json`, at any depth. -/

/-- The files `extract_dir.rglob("manifest.json")` would return: every file
whose final component is `manifest.json`, at any nesting depth. -/
def manifestCandidates (files : List Path) : List Path :=
  files.filter (fun p => p.getLast? = some "manifest.json")

/-- Errors raised by `_find_bundle_root` (`ValueError` with the corresponding
message in the source). -/
inductive FindRootError where
  | notFound : FindRootError
  | ambiguous : FindRootError
deriving Repr, DecidableEq

/-- `_find_bundle_root`: if `manifest.json` exists directly at the root,
return the root; otherwise `rglob` for `manifest.json` and demand exactly one
match, returning its parent. -/
def findBundleRoot (files : List Path) : Except FindRootError Path :=
  if ["manifest.json"] ∈ files then
    Except.ok []
  else
    match manifestCandidates files with
    | [] => Except.error FindRootError.notFound
    | [m] => Except.ok (pathParent m)
    | _ => Except.error FindRootError.ambiguous

/-- The discovery rule as claim C8 words it (for comparison with
`findBundleRoot`): a manifest is discoverable only at the root or one level
inside a top-level subdirectory, and it is accepted exactly when there is one
such candidate; zero is `MANIFEST_NOT_FOUND`, several are
`MANIFEST_AMBIGUOUS`. -/
def findBundleRootClaimC8 (files : List Path) : Except FindRootError Path :=
  match (manifestCandidates files).filter (fun p => p.length ≤ 2) with
  | [] => Except.error FindRootError.notFound
  | [m] => Except.ok (pathParent m)
  | _ => Except.error FindRootError.ambiguous

end FindBundleRoot

/-! ## Dance packs and pack sets (dance_pack.py, dance_pack_set.py)

Only the fields the embedded code reads are carried.  Python floats are
modelled as rationals: the arithmetic performed on them (`(min + max) / 2`)
is exact at these magnitudes, and no claim depends on float rounding. -/

/-- `PackMetadata` (dance_pack.py): the field the CLI reads. -/
structure PackMetadata where
  display_name : String
deriving Repr

/-- `GrooveDefinition` (dance_pack.py): the fields the coach binding reads.
`tempo_range_bpm` is destructured as exactly two values in the source. -/
structure GrooveDefinition where
  cycle_bars : Int
  subdivision : String
  tempo_range_bpm : Rat × Rat
  swing_ratio : Rat
deriving Repr

/-- `VelocityRange` (dance_pack.py): the field the coach binding reads. -/
structure VelocityRange where
  ghost_max : Int
deriving Repr

/-- `PerformanceProfile` (dance_pack.py): the field the coach binding reads. -/
structure PerformanceProfile where
  velocity_range : VelocityRange
deriving Repr

/-- `PracticeMapping` (dance_pack.py): the fields the CLI and binding read. -/
structure PracticeMapping where
  primary_focus : List String
  difficulty_rating : String
deriving Repr

/-- `DancePackV1` (dance_pack.py), restricted to the fields consumed by the
bundle pipeline. -/
structure DancePack where
  metadata : PackMetadata
  groove : GrooveDefinition
  performance_profile : PerformanceProfile
  practice_mapping : PracticeMapping
deriving Repr

/-- `AssignmentDefaults` (dance_pack.py). -/
structure AssignmentDefaults where
  tempo_start_bpm : Rat
  tempo_target_bpm : Rat
  tempo_ceiling_bpm : Rat
  bars_per_loop : Int
  strict_window_ms : Rat
  ghost_vel_max : Int
  swing_ratio : Rat
  subdivision : String
  difficulty : String
deriving Repr

/-- `pack_to_assignment_defaults` (dance_pack.py lines 388-426). -/
def pack_to_assignment_defaults (pack : DancePack) : AssignmentDefaults :=
  let tempoMin := pack.groove.tempo_range_bpm.1
  let tempoMax := pack.groove.tempo_range_bpm.2
  let strictWindow : Rat :=
    if pack.groove.subdivision = "ternary" then 50
    else if pack.groove.subdivision = "compound" then 45
    else 35
  { tempo_start_bpm := tempoMin
    tempo_target_bpm := (tempoMin + tempoMax) / 2
    tempo_ceiling_bpm := tempoMax
    bars_per_loop := pack.groove.cycle_bars
    strict_window_ms := strictWindow
    ghost_vel_max := pack.performance_profile.velocity_range.ghost_max
    swing_ratio := pack.groove.swing_ratio
    subdivision := pack.groove.subdivision
    difficulty := pack.practice_mapping.difficulty_rating }

/-- `DancePackSetV1` (dance_pack_set.py), restricted to the fields the bundle
pipeline reads.  `pack_set_policy.get_pack_defaults_from_set` iterates
`pack_set.packs` and uses each element directly as a pack id, and the policy
tests exercise exactly that shape, so `packs` is embedded as the list of pack
ids. -/
structure PackSet where
  id : String
  display_name : String
  tier : String
  packs : List String
deriving Repr

/-- `PackAssignmentBinding` (pack_set_policy.py). -/
structure PackAssignmentBinding where
  pack_id : String
  pack : DancePack
  defaults : AssignmentDefaults
deriving Repr

/-- `PackSetAssignmentDefaults` (pack_set_policy.py). -/
structure PackSetAssignmentDefaults where
  set_id : String
  set_display_name : String
  tier : String
  packs : List PackAssignmentBinding
deriving Repr

/-! ## Practice assignments (`_plan_assignment_from_pack_defaults`, cli.py 97-160)

The `sg_spec.ai.coach.schemas` Pydantic models are data-shape declarations
(the spec treats them as fixed external contracts); they are embedded as
plain structures carrying exactly the fields the CLI constructor sets. -/

/-- `AssignmentConstraints` as constructed by the CLI. -/
structure AssignmentConstraints where
  tempo_start : Int
  tempo_target : Int
  tempo_step : Int
  strict : Bool
  strict_window_ms : Rat
  bars_per_loop : Int
  repetitions : Int
deriving Repr

/-- `AssignmentFocus` as constructed by the CLI. -/
structure AssignmentFocus where
  primary : String
  secondary : Option String
deriving Repr

/-- `SuccessCriteria` as constructed by the CLI. -/
structure SuccessCriteria where
  max_mean_error_ms : Rat
  max_late_drops : Int
deriving Repr

/-- `CoachPrompt` as constructed by the CLI. -/
structure CoachPrompt where
  mode : String
  message : String
deriving Repr

/-- `ProgramRef` as constructed by the CLI (`ProgramType.ztprog`). -/
structure ProgramRef where
  type : String
  id : String
deriving Repr

/-- `PracticeAssignment` as constructed by the CLI. -/
structure PracticeAssignment where
  assignment_id : String
  session_id : String
  program : ProgramRef
  constraints : AssignmentConstraints
  focus : AssignmentFocus
  success_criteria : SuccessCriteria
  coach_prompt : CoachPrompt
  expires_after_sessions : Int
deriving Repr

/-- Python `int(...)` on a float: truncation toward zero. -/
def pyInt (q : Rat) : Int :=
  if 0 ≤ q then Rat.floor q else Rat.ceil q

/-- Modelled from the spec: `uuid.uuid5` of the Python standard library is not
part of this repository.  Spec §9: deterministic-ID-from-string generation "is
a pure function of (namespace constant, input string)"; the model keeps
exactly that — a fixed pure function of namespace and name — since no claim
depends on the SHA-1 internals of the real UUID computation. -/
def uuid5 (namespaceId : String) (name : String) : String :=
  "uuid5(" ++ namespaceId ++ "," ++ name ++ ")"

/-- `uuid.NAMESPACE_DNS`. -/
def NAMESPACE_DNS : String := "6ba7b810-9dad-11d1-80b4-00c04fd430c8"

/-- `_plan_assignment_from_pack_defaults` (cli.py lines 97-160): a
`PracticeAssignment` built directly from pack defaults, with deterministic
ids derived from the pack id. -/
def plan_assignment_from_pack_defaults (pack_id : String)
    (defaults : AssignmentDefaults) (pack : DancePack) : PracticeAssignment :=
  let session_id := uuid5 NAMESPACE_DNS ("pack-default-session:" ++ pack_id)
  let assignment_id := uuid5 NAMESPACE_DNS ("pack-default-assignment:" ++ pack_id)
  let constraints : AssignmentConstraints :=
    { tempo_start := pyInt defaults.tempo_start_bpm
      tempo_target := pyInt defaults.tempo_target_bpm
      tempo_step := 5
      strict := true
      strict_window_ms := defaults.strict_window_ms
      bars_per_loop := defaults.bars_per_loop
      repetitions := 8 }
  let primaryFocus : String :=
    match pack.practice_mapping.primary_focus with
    | [] => "groove"
    | f :: _ => f
  let focus : AssignmentFocus := { primary := primaryFocus, secondary := none }
  let success : SuccessCriteria := { max_mean_error_ms := 30, max_late_drops := 3 }
  let prompt : CoachPrompt :=
    { mode := "optional"
      message := "Practice " ++ pack.metadata.display_name ++ " at comfortable tempo." }
  let program : ProgramRef := { type := "ztprog", id := pack_id }
  { assignment_id := assignment_id
    session_id := session_id
    program := program
    constraints := constraints
    focus := focus
    success_criteria := success
    coach_prompt := prompt
    expires_after_sessions := 5 }

/-! ## Canonical JSON serialization

Models `json.dumps(..., sort_keys=True)` at the level every claim needs: a
fixed deterministic byte rendering of a `JVal`.  The digests recorded in
manifests are computed over these bytes. -/

mutual

/-- Deterministic rendering of a JSON value to the bytes written to disk. -/
def jserialize : JVal → String
  | JVal.jnull => "null"
  | JVal.jbool b => cond b "true" "false"
  | JVal.jnum q => toString q
  | JVal.jstr s => "\"" ++ s ++ "\""
  | JVal.jarr xs => "[" ++ jserializeArr xs ++ "]"
  | JVal.jobj fields => "\x7b" ++ jserializeObj fields ++ "\x7d"

/-- Rendering of an array's elements, comma separated. -/
def jserializeArr : List JVal → String
  | [] => ""
  | [x] => jserialize x
  | x :: rest => jserialize x ++ "," ++ jserializeArr rest

/-- Rendering of an object's fields, comma separated. -/
def jserializeObj : List (String × JVal) → String
  | [] => ""
  | [kv] => "\"" ++ kv.1 ++ "\":" ++ jserialize kv.2
  | kv :: rest => "\"" ++ kv.1 ++ "\":" ++ jserialize kv.2 ++ "," ++ jserializeObj rest

end

/-! ## Filesystem state

Writes prepend, so the newest entry for a path shadows older ones, exactly as
a rewritten file would.  Directories are tracked for existence checks; zip
archives hold the snapshot of the directory content they were made from. -/

/-- Association-list lookup keyed by path (newest entry first). -/
def alookup {α : Type} : List (Path × α) → Path → Option α
  | [], _ => none
  | (q, v) :: rest, p => if p = q then some v else alookup rest p

/-- The filesystem as explicit state. -/
structure Fs where
  files : List (Path × JVal)
  dirs : List Path
  zips : List (Path × List (Path × JVal))

/-- The empty filesystem. -/
def Fs.empty : Fs := { files := [], dirs := [], zips := [] }

/-- Read the current content of a file. -/
def Fs.read (fs : Fs) (p : Path) : Option JVal := alookup fs.files p

/-- Write (or overwrite) a file. -/
def Fs.write (fs : Fs) (p : Path) (v : JVal) : Fs :=
  { fs with files := (p, v) :: fs.files }

/-- `Path.mkdir(parents=True, exist_ok=True)`: create the directory if it is
not already present. -/
def Fs.mkdirP (fs : Fs) (d : Path) : Fs :=
  if d ∈ fs.dirs then fs else { fs with dirs := d :: fs.dirs }

/-- Record a created zip archive and the snapshot it contains. -/
def Fs.addZip (fs : Fs) (p : Path) (content : List (Path × JVal)) : Fs :=
  { fs with zips := (p, content) :: fs.zips }

/-- A file path lies strictly inside `base`. -/
abbrev underDir (base p : Path) : Prop :=
  p.take base.length = base ∧ base.length < p.length

/-- The archive produced by zipping directory `base`: every file strictly
inside it, stored under its path relative to `base` (archive entry order
follows the file list). -/
def zipOfDir (fs : Fs) (base : Path) : List (Path × JVal) :=
  fs.files.filterMap fun e =>
    if underDir base e.1 then some (relativeTo base e.1, e.2) else none

/-- Reading relative to a bundle root: the view of the filesystem the
verifier works with. -/
def readUnder (fs : Fs) (root : Path) : Path → Option JVal :=
  fun rel => alookup fs.files (root ++ rel)

/-! ## Python exceptions and the CLI environment -/

/-- A propagating Python exception, as `main` (cli.py 769-784) classifies
them. -/
inductive PyError where
  | fileNotFound : String → PyError
  | keyError : String → PyError
  | valueError : String → PyError
  | loadError : String → PyError
  | validationError : String → PyError
  | keyboardInterrupt : PyError
  | otherExc : String → String → PyError
deriving Repr, DecidableEq

/-- The collaborators the CLI calls out to.  `digest` and `hmacSign` are the
content-addressing and keyed-hash primitives (spec §2: `sha256:<64 hex>` over
the exact bytes written; HMAC-SHA256 over a canonical serialization) — every
claim is proved for an arbitrary choice of these pure functions, which is all
the code relies on.  The loaders stand for the bundled YAML pack/pack-set
registries and local file reads. -/
structure CliEnv where
  digest : String → String
  hmacSign : String → String → String
  readFile : String → Option String
  sessionAssignment : String → Except PyError PracticeAssignment
  loadSetById : String → Except PyError PackSet
  loadSetFromFile : String → Except PyError PackSet
  loadPackById : String → Except PyError DancePack
  started : Nat
  elapsed : Rat

/-- `None`-aware string field for manifests (`str(x) if x else None`). -/
def joptStr : Option String → JVal
  | none => JVal.jnull
  | some s => JVal.jstr s

/-! ## OTA payload and bundle builder

Modelled from the spec: `sg_spec/ai/coach/ota_payload.py` (build_ota_payload,
build_assignment_ota_bundle, verify_bundle_integrity, verify_zip_bundle) is
not under src/; only its callers (cli.py) and the repository tests are.  The
model follows spec §§4.1-4.5 and the shapes the tests pin down: each bundle
directory holds `assignment.json` (an OTA payload with a `payload` section
and, when a secret is supplied, a `signature`) and a `manifest.json` with a
`contract` tag and the digest record of every artifact, signed when a secret
is supplied. -/

/-- The serialized form of a `PracticeAssignment` (the `payload` section of
`assignment.json`; the assignment serializer module is not under src/). -/
def assignmentToJson (a : PracticeAssignment) : JVal :=
  JVal.jobj [
    ("assignment_id", JVal.jstr a.assignment_id),
    ("session_id", JVal.jstr a.session_id),
    ("program", JVal.jobj [
      ("type", JVal.jstr a.program.type),
      ("id", JVal.jstr a.program.id)]),
    ("constraints", JVal.jobj [
      ("tempo_start", JVal.jnum a.constraints.tempo_start),
      ("tempo_target", JVal.jnum a.constraints.tempo_target),
      ("tempo_step", JVal.jnum a.constraints.tempo_step),
      ("strict", JVal.jbool a.constraints.strict),
      ("strict_window_ms", JVal.jnum a.constraints.strict_window_ms),
      ("bars_per_loop", JVal.jnum a.constraints.bars_per_loop),
      ("repetitions", JVal.jnum a.constraints.repetitions)]),
    ("focus", JVal.jobj [
      ("primary", JVal.jstr a.focus.primary),
      ("secondary", joptStr a.focus.secondary)]),
    ("success_criteria", JVal.jobj [
      ("max_mean_error_ms", JVal.jnum a.success_criteria.max_mean_error_ms),
      ("max_late_drops", JVal.jnum a.success_criteria.max_late_drops)]),
    ("coach_prompt", JVal.jobj [
      ("mode", JVal.jstr a.coach_prompt.mode),
      ("message", JVal.jstr a.coach_prompt.message)]),
    ("expires_after_sessions", JVal.jnum a.expires_after_sessions)]

/-- Modelled from the spec (§4.3): the OTA payload — the assignment payload
plus, when a secret is given, an HMAC signature over its canonical
serialization; no secret means no signature section. -/
def build_ota_payload (env : CliEnv) (a : PracticeAssignment)
    (secret : Option String) : JVal :=
  let payload := assignmentToJson a
  match secret with
  | none => JVal.jobj [("payload", payload)]
  | some s => JVal.jobj [
      ("payload", payload),
      ("signature", JVal.jstr (env.hmacSign s (jserialize payload)))]

/-- The unsigned fields of a per-bundle `manifest.json`: the contract tag and
the artifact digest records. -/
def bundleManifestCoreFields (records : List (String × String)) :
    List (String × JVal) :=
  [("contract", JVal.jstr "ota_assignment_bundle"),
   ("artifacts", JVal.jarr (records.map fun r =>
      JVal.jobj [("path", JVal.jstr r.1), ("sha256", JVal.jstr r.2)]))]

/-- Modelled from the spec (§§4.2-4.3): the per-bundle manifest, signed over
the canonical serialization of its unsigned fields when a secret is given. -/
def bundleManifest (env : CliEnv) (records : List (String × String))
    (secret : Option String) : JVal :=
  let core := bundleManifestCoreFields records
  match secret with
  | none => JVal.jobj core
  | some s => JVal.jobj (core ++
      [("signature", JVal.jstr (env.hmacSign s (jserialize (JVal.jobj core))))])

/-- The result record `build_assignment_ota_bundle` hands back to the CLI. -/
structure BundleResult where
  bundle_dir : Path
  zip_path : Option Path
deriving Repr, DecidableEq

/-- Modelled from the spec (§§4.1, 4.4): `build_assignment_ota_bundle` writes
the bundle directory `out_dir/bundle_name` with `assignment.json` and a
digest manifest, optionally zipping it.  An already-existing destination
directory is an error (spec: "signals an error if the destination already
exists"; "a colliding name is an error, not a silent overwrite"). -/
def build_assignment_ota_bundle (env : CliEnv) (fs : Fs)
    (assignment : PracticeAssignment) (outDir : Path) (bundleName : String)
    (makeZip : Bool) (hmacSecret : Option String) :
    Except PyError (Fs × BundleResult) :=
  let bdir := outDir ++ [bundleName]
  if bdir ∈ fs.dirs then
    Except.error (PyError.valueError ("bundle dir exists: " ++ pathStr bdir))
  else
    let payload := build_ota_payload env assignment hmacSecret
    let records := [("assignment.json", env.digest (jserialize payload))]
    let manifest := bundleManifest env records hmacSecret
    let fs1 := ((fs.mkdirP bdir).write (bdir ++ ["assignment.json"]) payload).write
        (bdir ++ ["manifest.json"]) manifest
    if makeZip then
      let zipPath := outDir ++ [bundleName ++ ".zip"]
      let fs2 := fs1.addZip zipPath (zipOfDir fs1 bdir)
      Except.ok (fs2, { bundle_dir := bdir, zip_path := some zipPath })
    else
      Except.ok (fs1, { bundle_dir := bdir, zip_path := none })

/-! ## Verifier

Modelled from the spec (§4.5): the folder form reads the manifest (or, for a
multi-pack combined root, the wrapper manifest) and recomputes every recorded
artifact digest; the zip form locates the root with the discovery rule of
`_find_bundle_root` (which IS under src/), checks the signature when a secret
is supplied, and delegates to the folder form. -/

/-- Verification failures (spec §7 taxonomy; `malformedManifest` covers a
manifest that does not decode, needed for totality of the model). -/
inductive VerifyFail where
  | manifestNotFound : VerifyFail
  | manifestAmbiguous : VerifyFail
  | fileMissing : String → VerifyFail
  | digestMismatch : String → VerifyFail
  | signatureInvalid : VerifyFail
  | malformedManifest : VerifyFail
deriving Repr, DecidableEq

/-- Decode the artifact records of a per-bundle manifest. -/
def decodeRecords (v : JVal) : Option (List (String × String)) :=
  match jlookup v "artifacts" with
  | some (JVal.jarr xs) => xs.mapM fun x =>
      match jlookup x "path", jlookup x "sha256" with
      | some (JVal.jstr p), some (JVal.jstr h) => some (p, h)
      | _, _ => none
  | _ => none

/-- Decode the `sub_bundle_dir` entries of a wrapper manifest. -/
def decodeWrapperDirs (v : JVal) : Option (List String) :=
  match jlookup v "packs" with
  | some (JVal.jarr xs) => xs.mapM fun x =>
      match jlookup x "sub_bundle_dir" with
      | some (JVal.jstr s) => some s
      | _ => none
  | _ => none

/-- Recompute and compare the digest of every recorded artifact, relative to
the bundle root the reader is anchored at. -/
def verifyArtifacts (env : CliEnv) (read : Path → Option JVal) :
    List (String × String) → Except VerifyFail Unit
  | [] => Except.ok ()
  | (rel, rec) :: rest =>
    match read [rel] with
    | none => Except.error (VerifyFail.fileMissing rel)
    | some content =>
      if env.digest (jserialize content) = rec then verifyArtifacts env read rest
      else Except.error (VerifyFail.digestMismatch rel)

/-- Verify each sub-bundle a wrapper manifest points at, through its own
`manifest.json`. -/
def verifySubBundles (env : CliEnv) (read : Path → Option JVal) :
    List String → Except VerifyFail Unit
  | [] => Except.ok ()
  | s :: rest =>
    match read [s, "manifest.json"] with
    | none => Except.error VerifyFail.manifestNotFound
    | some m =>
      match decodeRecords m with
      | none => Except.error VerifyFail.malformedManifest
      | some records =>
        match verifyArtifacts env (fun rel => read (s :: rel)) records with
        | Except.ok _ => verifySubBundles env read rest
        | Except.error e => Except.error e

/-- Modelled from the spec (§4.5 folder form): read the manifest at the root
(or the wrapper manifest of a multi-pack combined root) and recompute every
artifact digest. -/
def verify_bundle_integrity (env : CliEnv) (read : Path → Option JVal) :
    Except VerifyFail Unit :=
  match read ["manifest.json"] with
  | some m =>
    match decodeRecords m with
    | none => Except.error VerifyFail.malformedManifest
    | some records => verifyArtifacts env read records
  | none =>
    match read ["bundle_manifest.json"] with
    | none => Except.error VerifyFail.manifestNotFound
    | some w =>
      match decodeWrapperDirs w with
      | none => Except.error VerifyFail.malformedManifest
      | some subs => verifySubBundles env read subs

/-- `cmd_ota_verify_folder` (cli.py 553-564): exit 0 and print `OK` when the
integrity check passes, else exit 1. -/
def cmdOtaVerifyFolder (env : CliEnv) (fs : Fs) (bundleDir : Path) : Int :=
  match verify_bundle_integrity env (readUnder fs bundleDir) with
  | Except.ok _ => 0
  | Except.error _ => 1

/-- Signature check of a located manifest (spec §4.3): with a secret, the
recorded signature must equal the recomputed HMAC over the manifest's
unsigned fields; a secret against an unsigned manifest fails closed. -/
def manifestSignatureOk (env : CliEnv) (m : JVal) (secret : Option String) :
    Bool :=
  match secret with
  | none => true
  | some s =>
    match m with
    | JVal.jobj fields =>
      match lookupKey fields "signature" with
      | some (JVal.jstr sig) =>
        sig = env.hmacSign s
          (jserialize (JVal.jobj (fields.filter fun kv => kv.1 ≠ "signature")))
      | _ => false
    | _ => false

/-- Modelled from the spec (§4.5 zip form): extract the archive, locate the
bundle root with `_find_bundle_root`'s rule, check the signature when a
secret is supplied, and delegate to the folder-form verifier. -/
def verify_zip_bundle (env : CliEnv) (zip : List (Path × JVal))
    (secret : Option String) : Except VerifyFail Unit :=
  match findBundleRoot (zip.map Prod.fst) with
  | Except.error FindRootError.notFound => Except.error VerifyFail.manifestNotFound
  | Except.error FindRootError.ambiguous => Except.error VerifyFail.manifestAmbiguous
  | Except.ok root =>
    let read : Path → Option JVal := fun rel => alookup zip (root ++ rel)
    match read ["manifest.json"] with
    | none => Except.error VerifyFail.manifestNotFound
    | some m =>
      if manifestSignatureOk env m secret then verify_bundle_integrity env read
      else Except.error VerifyFail.signatureInvalid

/-! ## The `ota-bundle` command (cli.py 260-550) -/

/-- The argument namespace the `ota-bundle` subparser produces (cli.py
714-728), with argparse's declared defaults. -/
structure CliArgs where
  session : Option String := none
  dance_pack_set : Option String := none
  dance_pack_set_path : Option String := none
  multi_pack : Bool := false
  out : String
  manifest : Option String := none
  name : Option String := none
  product : String := "smart-guitar"
  device_model : Option String := none
  min_firmware : Option String := none
  zip : Bool := false
  secret : Option String := none
  secret_file : Option String := none
deriving Repr

/-- Python truthiness of an optional string argument (`bool(x)`): absent or
empty is falsy. -/
def truthy : Option String → Bool
  | none => false
  | some s => !s.isEmpty

/-- HMAC secret resolution (cli.py 272-276): an inline `--secret` wins,
otherwise `--secret-file` is read (raising `FileNotFoundError` when the file
is missing) and stripped. -/
def resolveSecret (env : CliEnv) (args : CliArgs) :
    Except PyError (Option String) :=
  if truthy args.secret then Except.ok (some (args.secret.getD ""))
  else if truthy args.secret_file then
    match env.readFile (args.secret_file.getD "") with
    | none => Except.error (PyError.fileNotFound (args.secret_file.getD ""))
    | some s => Except.ok (some s.trim)
  else Except.ok none

/-- The manifest written in single-session mode (cli.py 326-339): one output,
`set` explicitly null, no other mode-specific key. -/
def sessionManifest (started : Nat) (elapsed : Rat) (res : BundleResult) :
    JVal :=
  JVal.jobj [
    ("schema_id", JVal.jstr "ota_bundle_manifest"),
    ("schema_version", JVal.jstr "v1"),
    ("mode", JVal.jstr "single-session"),
    ("generated_at_unix", JVal.jnum started),
    ("elapsed_s", JVal.jnum elapsed),
    ("set", JVal.jnull),
    ("outputs", JVal.jarr [JVal.jobj [
      ("bundle_dir", JVal.jstr (pathStr res.bundle_dir)),
      ("zip_path", joptStr (res.zip_path.map pathStr))]])]

/-- `set_summary` (cli.py 384-389). -/
def setSummaryJson (ps : PackSet) (pack_ids : List String) : JVal :=
  JVal.jobj [
    ("id", JVal.jstr ps.id),
    ("display_name", JVal.jstr ps.display_name),
    ("tier", JVal.jstr ps.tier),
    ("pack_count", JVal.jnum pack_ids.length)]

/-- The `set` section of pack-set manifests (cli.py 445, 538). -/
def setJson (ps : PackSet) (pack_ids : List String) : JVal :=
  JVal.jobj [
    ("id", JVal.jstr ps.id),
    ("pack_ids", JVal.jarr (pack_ids.map JVal.jstr)),
    ("summary", setSummaryJson ps pack_ids)]

/-- One per-pack `outputs` entry (cli.py 429-434). -/
def perPackOutputInfo (b : PackAssignmentBinding) (res : BundleResult) : JVal :=
  JVal.jobj [
    ("dance_pack_id", JVal.jstr b.pack_id),
    ("display_name", JVal.jstr b.pack.metadata.display_name),
    ("bundle_dir", JVal.jstr (pathStr res.bundle_dir)),
    ("zip_path", joptStr (res.zip_path.map pathStr))]

/-- The per-pack mode manifest (cli.py 439-447). -/
def perPackManifest (started : Nat) (elapsed : Rat) (ps : PackSet)
    (pack_ids : List String) (outputs : List JVal) : JVal :=
  JVal.jobj [
    ("schema_id", JVal.jstr "ota_bundle_manifest"),
    ("schema_version", JVal.jstr "v1"),
    ("mode", JVal.jstr "per-pack"),
    ("generated_at_unix", JVal.jnum started),
    ("elapsed_s", JVal.jnum elapsed),
    ("set", setJson ps pack_ids),
    ("outputs", JVal.jarr outputs)]

/-- One wrapper-manifest `packs` entry (cli.py 503-507): exactly the keys the
source dict literal carries. -/
def multiPackSubOutput (b : PackAssignmentBinding) (res : BundleResult)
    (bundleDir : Path) : JVal :=
  JVal.jobj [
    ("dance_pack_id", JVal.jstr b.pack_id),
    ("display_name", JVal.jstr b.pack.metadata.display_name),
    ("sub_bundle_dir", JVal.jstr (pathStr (relativeTo bundleDir res.bundle_dir)))]

/-- The wrapper manifest written as `bundle_manifest.json` inside the combined
bundle root (cli.py 511-519). -/
def multiPackInternalManifest (ps : PackSet) (pack_ids : List String)
    (sub_outputs : List JVal) : JVal :=
  JVal.jobj [
    ("schema_id", JVal.jstr "ota_multi_pack_bundle"),
    ("schema_version", JVal.jstr "v1"),
    ("set_id", JVal.jstr ps.id),
    ("set_display_name", JVal.jstr ps.display_name),
    ("tier", JVal.jstr ps.tier),
    ("pack_count", JVal.jnum pack_ids.length),
    ("packs", JVal.jarr sub_outputs)]

/-- The multi-pack mode top-level manifest (cli.py 532-544). -/
def multiPackTopManifest (started : Nat) (elapsed : Rat) (ps : PackSet)
    (pack_ids : List String) (bundleDir : Path) (zipPath : Option Path)
    (sub_outputs : List JVal) : JVal :=
  JVal.jobj [
    ("schema_id", JVal.jstr "ota_bundle_manifest"),
    ("schema_version", JVal.jstr "v1"),
    ("mode", JVal.jstr "multi-pack"),
    ("generated_at_unix", JVal.jnum started),
    ("elapsed_s", JVal.jnum elapsed),
    ("set", setJson ps pack_ids),
    ("outputs", JVal.jarr [JVal.jobj [
      ("bundle_dir", JVal.jstr (pathStr bundleDir)),
      ("zip_path", joptStr (zipPath.map pathStr)),
      ("packs", JVal.jarr sub_outputs)]])]

/-- `validate_set_references` (dance_pack_set.py 142-145): load every
referenced pack, propagating the first load error. -/
def validateSetRefs (env : CliEnv) : List String → Except PyError Unit
  | [] => Except.ok ()
  | pid :: rest =>
    match env.loadPackById pid with
    | Except.error e => Except.error e
    | Except.ok _ => validateSetRefs env rest

/-- The loop of `get_pack_defaults_from_set` (pack_set_policy.py 68-79):
load each pack of the set in order and bind it to its assignment defaults. -/
def loadBindings (env : CliEnv) :
    List String → Except PyError (List PackAssignmentBinding)
  | [] => Except.ok []
  | pid :: rest =>
    match env.loadPackById pid with
    | Except.error e => Except.error e
    | Except.ok pack =>
      match loadBindings env rest with
      | Except.error e => Except.error e
      | Except.ok bs => Except.ok
          ({ pack_id := pid, pack := pack,
             defaults := pack_to_assignment_defaults pack } :: bs)

/-- `get_pack_defaults_from_set` (pack_set_policy.py 50-86). -/
def get_pack_defaults_from_set (env : CliEnv) (ps : PackSet) :
    Except PyError PackSetAssignmentDefaults :=
  (loadBindings env ps.packs).map fun bs =>
    { set_id := ps.id, set_display_name := ps.display_name,
      tier := ps.tier, packs := bs }

/-- The outcome of a CLI command: the returned exit code or the propagating
exception, plus the filesystem as the command left it and the bundle results
it reported. -/
structure CmdOut where
  exit : Except PyError Int
  fs : Fs
  results : List BundleResult

/-- The per-pack build loop (cli.py 404-436): one bundle per binding, named
`ota_bundle__<pack_id>`, collecting the `outputs` entries in iteration
order.  On an exception the filesystem keeps everything written so far. -/
def perPackLoop (env : CliEnv) (makeZip : Bool) (hmacSecret : Option String)
    (outDir : Path) :
    Fs → List PackAssignmentBinding →
      Fs × Except PyError (List JVal × List BundleResult)
  | fs, [] => (fs, Except.ok ([], []))
  | fs, b :: rest =>
    let assignment := plan_assignment_from_pack_defaults b.pack_id b.defaults b.pack
    let bundleName := "ota_bundle__" ++ b.pack_id
    match build_assignment_ota_bundle env fs assignment outDir bundleName
        makeZip hmacSecret with
    | Except.error e => (fs, Except.error e)
    | Except.ok (fs1, res) =>
      match perPackLoop env makeZip hmacSecret outDir fs1 rest with
      | (fs2, Except.error e) => (fs2, Except.error e)
      | (fs2, Except.ok (outputs, results)) =>
        (fs2, Except.ok (perPackOutputInfo b res :: outputs, res :: results))

/-- The multi-pack sub-bundle loop (cli.py 480-508): one sub-bundle per
binding inside the combined root, named exactly by pack id, never
individually zipped. -/
def multiPackLoop (env : CliEnv) (hmacSecret : Option String)
    (bundleDir : Path) :
    Fs → List PackAssignmentBinding →
      Fs × Except PyError (List JVal × List BundleResult)
  | fs, [] => (fs, Except.ok ([], []))
  | fs, b :: rest =>
    let assignment := plan_assignment_from_pack_defaults b.pack_id b.defaults b.pack
    match build_assignment_ota_bundle env fs assignment bundleDir b.pack_id
        false hmacSecret with
    | Except.error e => (fs, Except.error e)
    | Except.ok (fs1, res) =>
      match multiPackLoop env hmacSecret bundleDir fs1 rest with
      | (fs2, Except.error e) => (fs2, Except.error e)
      | (fs2, Except.ok (outputs, results)) =>
        (fs2, Except.ok (multiPackSubOutput b res bundleDir :: outputs,
          res :: results))

/-- `_build_multi_pack_bundle` (cli.py 454-550). -/
def buildMultiPackBundle (env : CliEnv) (args : CliArgs) (ps : PackSet)
    (sd : PackSetAssignmentDefaults) (pack_ids : List String) (outDir : Path)
    (hmacSecret : Option String) (manifestPath : Path) (fs : Fs) : CmdOut :=
  let bundleName := "ota_bundle__" ++ ps.id
  let bundleDir := outDir ++ [bundleName]
  let fs1 := fs.mkdirP bundleDir
  match multiPackLoop env hmacSecret bundleDir fs1 sd.packs with
  | (fs2, Except.error e) => { exit := Except.error e, fs := fs2, results := [] }
  | (fs2, Except.ok (sub_outputs, _)) =>
    let internal := multiPackInternalManifest ps pack_ids sub_outputs
    let fs3 := fs2.write (bundleDir ++ ["bundle_manifest.json"]) internal
    let zipped : Option Path × Fs :=
      if args.zip then
        let zp := outDir ++ [bundleName ++ ".zip"]
        (some zp, fs3.addZip zp (zipOfDir fs3 bundleDir))
      else (none, fs3)
    let manifest := multiPackTopManifest env.started env.elapsed ps pack_ids
      bundleDir zipped.1 sub_outputs
    let fs4 := zipped.2.write manifestPath manifest
    { exit := Except.ok 0, fs := fs4,
      results := [{ bundle_dir := bundleDir, zip_path := zipped.1 }] }

/-- `_build_bundles_from_pack_set` (cli.py 350-451). -/
def buildBundlesFromPackSet (env : CliEnv) (args : CliArgs)
    (hmacSecret : Option String) (manifestPath : Path) (fs : Fs) : CmdOut :=
  let loaded :=
    if truthy args.dance_pack_set_path then
      env.loadSetFromFile (args.dance_pack_set_path.getD "")
    else
      env.loadSetById (args.dance_pack_set.getD "")
  match loaded with
  | Except.error e => { exit := Except.error e, fs := fs, results := [] }
  | Except.ok ps =>
    match validateSetRefs env ps.packs with
    | Except.error e => { exit := Except.error e, fs := fs, results := [] }
    | Except.ok _ =>
      match get_pack_defaults_from_set env ps with
      | Except.error e => { exit := Except.error e, fs := fs, results := [] }
      | Except.ok sd =>
        let pack_ids := sd.packs.map (fun b => b.pack_id)
        let outDir : Path := [args.out]
        let fs1 := fs.mkdirP outDir
        if args.multi_pack then
          buildMultiPackBundle env args ps sd pack_ids outDir hmacSecret
            manifestPath fs1
        else
          match perPackLoop env args.zip hmacSecret outDir fs1 sd.packs with
          | (fs2, Except.error e) =>
            { exit := Except.error e, fs := fs2, results := [] }
          | (fs2, Except.ok (outputs, results)) =>
            let manifest := perPackManifest env.started env.elapsed ps pack_ids
              outputs
            let fs3 := fs2.write manifestPath manifest
            { exit := Except.ok 0, fs := fs3, results := results }

/-- `cmd_ota_bundle` (cli.py 260-347): secret resolution, the selector
exclusivity check, output-directory creation, then dispatch to pack-set or
session mode.  The missing builder's default bundle folder name is modelled
as `ota_bundle`. -/
def cmdOtaBundle (env : CliEnv) (args : CliArgs) (fs : Fs) : CmdOut :=
  match resolveSecret env args with
  | Except.error e => { exit := Except.error e, fs := fs, results := [] }
  | Except.ok hmacSecret =>
    let selectors := [truthy args.session, truthy args.dance_pack_set,
      truthy args.dance_pack_set_path]
    if 1 < selectors.count true then
      { exit := Except.ok 1, fs := fs, results := [] }
    else
      let outDir : Path := [args.out]
      let fs1 := fs.mkdirP outDir
      let manifestPath : Path :=
        match args.manifest with
        | some m => [m]
        | none => outDir ++ ["ota_manifest.json"]
      if truthy args.dance_pack_set || truthy args.dance_pack_set_path then
        buildBundlesFromPackSet env args hmacSecret manifestPath fs1
      else if !truthy args.session then
        { exit := Except.ok 1, fs := fs1, results := [] }
      else
        match env.readFile (args.session.getD "") with
        | none =>
          { exit := Except.error (PyError.fileNotFound (args.session.getD "")),
            fs := fs1, results := [] }
        | some txt =>
          match env.sessionAssignment txt with
          | Except.error e => { exit := Except.error e, fs := fs1, results := [] }
          | Except.ok assignment =>
            match build_assignment_ota_bundle env fs1 assignment outDir
                (args.name.getD "ota_bundle") args.zip hmacSecret with
            | Except.error e =>
              { exit := Except.error e, fs := fs1, results := [] }
            | Except.ok (fs2, res) =>
              let manifest := sessionManifest env.started env.elapsed res
              let fs3 := fs2.write manifestPath manifest
              { exit := Except.ok 0, fs := fs3, results := [res] }

/-! ## Argument parser surface and `main` (cli.py 684-784) -/

/-- The option strings the `ota-bundle` subparser declares (cli.py 714-727). -/
def otaBundleOptionNames : List String :=
  ["--session", "--dance-pack-set", "--dance-pack-set-path", "--multi-pack",
   "--out", "--manifest", "--name", "--product", "--device-model",
   "--min-firmware", "--zip", "--secret", "--secret-file"]

/-- The subcommands `build_parser` registers (cli.py 684-766). -/
def commandNames : List String :=
  ["export-bundle", "ota-pack", "ota-verify", "ota-bundle",
   "ota-verify-folder", "ota-verify-zip", "dance-pack-list",
   "dance-pack-set-list", "dance-pack-set-validate", "dance-pack-set-show"]

/-- Subcommand resolution of the argparse parser: the subparser argument is
required, so an empty or unknown command makes argparse raise
`SystemExit(2)`.  (Per-command option validation, which also exits 2, is not
modelled; this is the part `main`'s try/except never sees.) -/
def parseCommand : List String → Except Int String
  | [] => Except.error 2
  | c :: _ => if c ∈ commandNames then Except.ok c else Except.error 2

/-- `main` (cli.py 769-784): parse, dispatch, and map uncaught exceptions of
the dispatched command to exit codes.  `Except.error code` is a `SystemExit`
escaping `main` itself — argparse failures happen outside the try block and
`SystemExit` is not an `Exception` subclass. -/
def runMain (argv : List String) (dispatch : String → Except PyError Int) :
    Except Int Int :=
  match parseCommand argv with
  | Except.error code => Except.error code
  | Except.ok c =>
    match dispatch c with
    | Except.ok n => Except.ok n
    | Except.error PyError.keyboardInterrupt => Except.ok 130
    | Except.error (PyError.fileNotFound _) => Except.ok 2
    | Except.error _ => Except.ok 1

/-! ## Derived predicates and concrete fixtures -/

/-- A bundle directory passes the folder-form integrity check through its own
`manifest.json`: the manifest is present, decodes, and every recorded
artifact digest recomputes. -/
def bundleVerifies (env : CliEnv) (fs : Fs) (root : Path) : Prop :=
  ∃ m recs, readUnder fs root ["manifest.json"] = some m
    ∧ decodeRecords m = some recs
    ∧ verifyArtifacts env (readUnder fs root) recs = Except.ok ()

/-- A concrete dance pack, shaped like the bundled `rock_straight_v1`. -/
def samplePackRock : DancePack :=
  { metadata := { display_name := "Rock Straight" }
    groove := { cycle_bars := 2, subdivision := "binary",
                tempo_range_bpm := (80, 120), swing_ratio := 0 }
    performance_profile := { velocity_range := { ghost_max := 24 } }
    practice_mapping := { primary_focus := ["groove"],
                          difficulty_rating := "easy" } }

/-- A second concrete dance pack, shaped like `funk_16th_pocket_v1`. -/
def samplePackFunk : DancePack :=
  { metadata := { display_name := "Funk 16th Pocket" }
    groove := { cycle_bars := 4, subdivision := "ternary",
                tempo_range_bpm := (90, 110), swing_ratio := 1/2 }
    performance_profile := { velocity_range := { ghost_max := 20 } }
    practice_mapping := { primary_focus := ["syncopation"],
                          difficulty_rating := "medium" } }

/-- A concrete two-pack set, shaped like `groove_foundations_v1`. -/
def sampleSet : PackSet :=
  { id := "groove_foundations_v1", display_name := "Groove Foundations",
    tier := "core", packs := ["rock_straight_v1", "funk_16th_pocket_v1"] }

/-- A concrete environment for evaluating the commands: a simple injective
digest and keyed hash, and registries holding the two sample packs and the
sample set. -/
def sampleEnv : CliEnv :=
  { digest := fun s => "sha256:" ++ s
    hmacSign := fun key msg => "hmac:" ++ key ++ ":" ++ msg
    readFile := fun _ => none
    sessionAssignment := fun _ => Except.error (PyError.validationError "bad session")
    loadSetById := fun i =>
      if i = "groove_foundations_v1" then Except.ok sampleSet
      else Except.error (PyError.keyError i)
    loadSetFromFile := fun _ => Except.error (PyError.fileNotFound "set.yaml")
    loadPackById := fun i =>
      if i = "rock_straight_v1" then Except.ok samplePackRock
      else if i = "funk_16th_pocket_v1" then Except.ok samplePackFunk
      else Except.error (PyError.loadError i)
    started := 1700000000
    elapsed := 0 }

/-- The binding `get_pack_defaults_from_set` would produce for the rock pack. -/
def sampleBindingRock : PackAssignmentBinding :=
  { pack_id := "rock_straight_v1", pack := samplePackRock,
    defaults := pack_to_assignment_defaults samplePackRock }

/-- `ota-bundle --out out` with no selector at all. -/
def argsNoSelector : CliArgs := { out := "out" }

/-- `ota-bundle --dance-pack-set groove_foundations_v1 --out out`. -/
def argsPerPack : CliArgs :=
  { out := "out", dance_pack_set := some "groove_foundations_v1" }

/-- `ota-bundle --dance-pack-set groove_foundations_v1 --multi-pack --zip
--out out`. -/
def argsMultiZip : CliArgs :=
  { out := "out", dance_pack_set := some "groove_foundations_v1",
    multi_pack := true, zip := true }

/-! ## Claim C8 — manifest discovery rule -/

/-- C8 (counterexample): with `manifest.json` both at the root and one level
down, two manifests are discoverable, so the claim's rule reports
`MANIFEST_AMBIGUOUS` — but `_find_bundle_root` accepts the root without any
ambiguity check. -/
theorem c8_counterexample :
    findBundleRoot [["manifest.json"], ["sub", "manifest.json"]] = Except.ok []
    ∧ findBundleRootClaimC8 [["manifest.json"], ["sub", "manifest.json"]]
      = Except.error FindRootError.ambiguous
    ∧ (manifestCandidates [["manifest.json"], ["sub", "manifest.json"]]).length = 2 :=
  ⟨rfl, rfl, rfl⟩

/-- C8 (amended): a `manifest.json` directly at the root is accepted
unconditionally; only when the root lacks one does the recursive search
apply, with zero candidates reported as `MANIFEST_NOT_FOUND` and two or more
as `MANIFEST_AMBIGUOUS`. -/
theorem c8_amended_manifest_discovery (files : List Path) :
    (["manifest.json"] ∈ files → findBundleRoot files = Except.ok [])
    ∧ (["manifest.json"] ∉ files →
        (manifestCandidates files = [] →
          findBundleRoot files = Except.error FindRootError.notFound)
        ∧ (2 ≤ (manifestCandidates files).length →
          findBundleRoot files = Except.error FindRootError.ambiguous)) := by
  refine ⟨fun h => by simp [findBundleRoot, h],
    fun h => ⟨fun hc => by simp [findBundleRoot, h, hc], fun hc => ?_⟩⟩
  unfold findBundleRoot
  rw [if_neg h]
  rcases hm : manifestCandidates files with _ | ⟨a, _ | ⟨b, t⟩⟩
  · rw [hm] at hc; simp at hc
  · rw [hm] at hc; simp at hc
  · rfl

/-- C8 (witness for the amended theorem): two nested manifests and no root
manifest give the ambiguity error. -/
theorem c8_amended_manifest_discovery_witness :
    findBundleRoot [["a", "manifest.json"], ["c", "manifest.json"]]
      = Except.error FindRootError.ambiguous :=
  ((c8_amended_manifest_discovery
      [["a", "manifest.json"], ["c", "manifest.json"]]).2 (by decide)).2 (by decide)

/-! ## Claim C9 — root shortcut and any-depth search -/

/-- C9: a root `manifest.json` is always accepted, even with further
manifests deeper in the tree; when the root lacks one, a unique candidate at
any nesting depth is accepted with its parent as the bundle root. -/
theorem c9_root_shortcut_any_depth (files : List Path) (p : Path) :
    (["manifest.json"] ∈ files → findBundleRoot files = Except.ok [])
    ∧ (["manifest.json"] ∉ files → manifestCandidates files = [p] →
        findBundleRoot files = Except.ok (pathParent p)) := by
  refine ⟨fun h => by simp [findBundleRoot, h], fun h hp => ?_⟩
  unfold findBundleRoot
  rw [if_neg h, hp]

/-- C9 (witness): the root manifest wins despite a deeper manifest, and a
manifest nested two levels down — deeper than the claim C8 wording allows —
is still found. -/
theorem c9_root_shortcut_any_depth_witness :
    findBundleRoot [["manifest.json"], ["deep", "deeper", "manifest.json"]]
      = Except.ok []
    ∧ findBundleRoot [["notes.txt"], ["a", "b", "manifest.json"]]
      = Except.ok ["a", "b"] :=
  ⟨(c9_root_shortcut_any_depth
      [["manifest.json"], ["deep", "deeper", "manifest.json"]] []).1 (by decide),
   (c9_root_shortcut_any_depth [["notes.txt"], ["a", "b", "manifest.json"]]
      ["a", "b", "manifest.json"]).2 (by decide) (by decide)⟩

/-! ## Claim C10 — `main` exception mapping -/

/-- C10 (counterexample): on an argument vector the parser rejects (here: no
subcommand at all), `main` does not return an exit code — the argparse
`SystemExit` propagates out of it, refuting "for every argument vector ...
never propagates an exception". -/
theorem c10_counterexample :
    runMain [] (fun _ => Except.ok 0) = Except.error 2 := rfl

/-- C10 (amended): for every argument vector the parser accepts, `main`
returns an integer: the command's return value, 2 for `FileNotFoundError`,
130 for `KeyboardInterrupt`, and 1 for any other exception. -/
theorem c10_amended_main_exception_mapping (argv : List String)
    (dispatch : String → Except PyError Int) (c : String)
    (hparse : parseCommand argv = Except.ok c) :
    (∀ n : Int, dispatch c = Except.ok n → runMain argv dispatch = Except.ok n)
    ∧ (∀ p, dispatch c = Except.error (PyError.fileNotFound p) →
        runMain argv dispatch = Except.ok 2)
    ∧ (dispatch c = Except.error PyError.keyboardInterrupt →
        runMain argv dispatch = Except.ok 130)
    ∧ (∀ e, dispatch c = Except.error e → e ≠ PyError.keyboardInterrupt →
        (∀ p, e ≠ PyError.fileNotFound p) →
        runMain argv dispatch = Except.ok 1) := by
  refine ⟨fun n h => by simp [runMain, hparse, h],
    fun p h => by simp [runMain, hparse, h],
    fun h => by simp [runMain, hparse, h],
    fun e h hk hf => ?_⟩
  cases e with
  | fileNotFound p => exact absurd rfl (hf p)
  | keyError m => simp [runMain, hparse, h]
  | valueError m => simp [runMain, hparse, h]
  | loadError m => simp [runMain, hparse, h]
  | validationError m => simp [runMain, hparse, h]
  | keyboardInterrupt => exact absurd rfl hk
  | otherExc t m => simp [runMain, hparse, h]

/-- C10 (witness): a parsed command raising `FileNotFoundError` exits 2. -/
theorem c10_amended_main_exception_mapping_witness :
    runMain ["ota-bundle"]
      (fun _ => Except.error (PyError.fileNotFound "session.json"))
      = Except.ok 2 :=
  (c10_amended_main_exception_mapping ["ota-bundle"]
      (fun _ => Except.error (PyError.fileNotFound "session.json"))
      "ota-bundle" rfl).2.1 "session.json" rfl

/-! ## Claim C2 — selector exclusivity and side effects -/

/-- C2 (counterexample): with zero selectors the command exits 1, but only
after creating the output directory — starting from an empty filesystem the
directory list afterwards is nonempty, refuting "before any filesystem side
effect". -/
theorem c2_counterexample :
    (cmdOtaBundle sampleEnv argsNoSelector Fs.empty).exit = Except.ok 1
    ∧ (cmdOtaBundle sampleEnv argsNoSelector Fs.empty).fs.dirs = [["out"]]
    ∧ Fs.empty.dirs = [] :=
  ⟨rfl, rfl, rfl⟩

/-- C2 (amended): supplying two or more selectors exits 1 before any
filesystem side effect (the state is returned untouched); supplying zero
selectors also exits 1, but only after `mkdir` of the output directory. -/
theorem c2_amended_selector_exclusivity (env : CliEnv) (args : CliArgs)
    (fs : Fs) (sec : Option String)
    (hsec : resolveSecret env args = Except.ok sec) :
    (1 < ([truthy args.session, truthy args.dance_pack_set,
        truthy args.dance_pack_set_path].count true) →
      cmdOtaBundle env args fs =
        { exit := Except.ok 1, fs := fs, results := [] })
    ∧ (truthy args.session = false → truthy args.dance_pack_set = false →
        truthy args.dance_pack_set_path = false →
      cmdOtaBundle env args fs =
        { exit := Except.ok 1, fs := fs.mkdirP [args.out], results := [] }) := by
  constructor
  · intro h
    simp [cmdOtaBundle, hsec, h]
  · intro h1 h2 h3
    simp [cmdOtaBundle, hsec, h1, h2, h3]

/-- C2 (witness for the amended theorem): two selectors at once exit 1 with
the filesystem untouched. -/
theorem c2_amended_selector_exclusivity_witness :
    cmdOtaBundle sampleEnv
      { out := "out", session := some "s.json",
        dance_pack_set := some "groove_foundations_v1" } Fs.empty
      = { exit := Except.ok 1, fs := Fs.empty, results := [] } :=
  (c2_amended_selector_exclusivity sampleEnv
    { out := "out", session := some "s.json",
      dance_pack_set := some "groove_foundations_v1" }
    Fs.empty none rfl).1 (by decide)

/-! ## Claim C3 — no single-pack build mode exists in the code -/

/-- C3 (code bug): the repository's own tests invoke
`ota-bundle --dance-pack ...` and expect a `single-pack` manifest with a
`pack` section, but the parser declares no such option and the only
single-bundle mode writes `mode="single-session"` with no `pack` key at
all. -/
theorem c3_code_bug_no_single_pack_mode :
    ¬ ("--dance-pack" ∈ otaBundleOptionNames)
    ∧ ¬ ("--dance-pack-path" ∈ otaBundleOptionNames)
    ∧ jlookup (sessionManifest 1700000000 0
        { bundle_dir := ["out", "bundle"], zip_path := none }) "mode"
      = some (JVal.jstr "single-session")
    ∧ "single-session" ≠ "single-pack"
    ∧ jlookup (sessionManifest 1700000000 0
        { bundle_dir := ["out", "bundle"], zip_path := none }) "pack" = none
    ∧ jlookup (sessionManifest 1700000000 0
        { bundle_dir := ["out", "bundle"], zip_path := none }) "set"
      = some JVal.jnull :=
  ⟨by decide, by decide, rfl, by decide, rfl, rfl⟩

/-! ## Claim C4 — wrapper manifest entries lack `manifest_path` -/

/-- C4 (code bug): the wrapper manifest carries the claimed identification
fields, but each `packs[]` entry holds only `dance_pack_id`, `display_name`
and `sub_bundle_dir` — `manifest_path`, which the spec and the repository's
own tests require, is absent. -/
theorem c4_code_bug_wrapper_lacks_manifest_path (b : PackAssignmentBinding)
    (res : BundleResult) (bundleDir : Path) (ps : PackSet)
    (pack_ids : List String) (subs : List JVal) :
    jlookup (multiPackInternalManifest ps pack_ids subs) "schema_id"
      = some (JVal.jstr "ota_multi_pack_bundle")
    ∧ jlookup (multiPackInternalManifest ps pack_ids subs) "set_id"
      = some (JVal.jstr ps.id)
    ∧ jlookup (multiPackInternalManifest ps pack_ids subs) "set_display_name"
      = some (JVal.jstr ps.display_name)
    ∧ jlookup (multiPackInternalManifest ps pack_ids subs) "tier"
      = some (JVal.jstr ps.tier)
    ∧ jlookup (multiPackInternalManifest ps pack_ids subs) "pack_count"
      = some (JVal.jnum pack_ids.length)
    ∧ jlookup (multiPackInternalManifest ps pack_ids subs) "packs"
      = some (JVal.jarr subs)
    ∧ jlookup (multiPackSubOutput b res bundleDir) "dance_pack_id"
      = some (JVal.jstr b.pack_id)
    ∧ jlookup (multiPackSubOutput b res bundleDir) "display_name"
      = some (JVal.jstr b.pack.metadata.display_name)
    ∧ jlookup (multiPackSubOutput b res bundleDir) "sub_bundle_dir"
      = some (JVal.jstr (pathStr (relativeTo bundleDir res.bundle_dir)))
    ∧ jlookup (multiPackSubOutput b res bundleDir) "manifest_path" = none :=
  ⟨rfl, rfl, rfl, rfl, rfl, rfl, rfl, rfl, rfl, rfl⟩

/-! ## Filesystem lookup lemmas -/

theorem alookup_cons_self {α : Type} (p : Path) (v : α)
    (rest : List (Path × α)) : alookup ((p, v) :: rest) p = some v := by
  simp [alookup]

theorem alookup_cons_ne {α : Type} (p q : Path) (v : α)
    (rest : List (Path × α)) (h : p ≠ q) :
    alookup ((q, v) :: rest) p = alookup rest p := by
  simp [alookup, h]

theorem append_singleton_ne (base : Path) (x y : String) (h : x ≠ y) :
    base ++ [x] ≠ base ++ [y] := by
  intro hh
  exact h (by simpa using (List.append_right_inj base).1 hh)

/-! ## Characterization of a successful bundle build -/

/-- What a successful `build_assignment_ota_bundle` run did: the destination
was fresh, the bundle directory was created, and exactly the payload and the
manifest were written on top of the previous files. -/
theorem build_ok_spec (env : CliEnv) (fs : Fs)
    (assignment : PracticeAssignment) (outDir : Path) (bundleName : String)
    (makeZip : Bool) (sec : Option String) (fs' : Fs) (res : BundleResult)
    (h : build_assignment_ota_bundle env fs assignment outDir bundleName
      makeZip sec = Except.ok (fs', res)) :
    res.bundle_dir = outDir ++ [bundleName]
    ∧ (outDir ++ [bundleName]) ∉ fs.dirs
    ∧ fs'.files = (outDir ++ [bundleName] ++ ["manifest.json"],
        bundleManifest env [("assignment.json",
          env.digest (jserialize (build_ota_payload env assignment sec)))] sec)
      :: (outDir ++ [bundleName] ++ ["assignment.json"],
          build_ota_payload env assignment sec)
      :: fs.files
    ∧ fs'.dirs = (outDir ++ [bundleName]) :: fs.dirs
    ∧ res.zip_path
      = (if makeZip then some (outDir ++ [bundleName ++ ".zip"]) else none) := by
  by_cases hmem : (outDir ++ [bundleName]) ∈ fs.dirs
  · simp only [build_assignment_ota_bundle] at h
    rw [if_pos hmem] at h
    exact absurd h (by simp)
  · simp only [build_assignment_ota_bundle] at h
    rw [if_neg hmem] at h
    cases makeZip with
    | false =>
      simp only [Bool.false_eq_true, if_false, Except.ok.injEq, Prod.mk.injEq] at h
      obtain ⟨hfs, hres⟩ := h
      subst hfs hres
      refine ⟨rfl, hmem, ?_, ?_, rfl⟩
      · simp [Fs.write, Fs.mkdirP, hmem]
      · simp [Fs.write, Fs.mkdirP, hmem]
    | true =>
      simp only [if_true, Except.ok.injEq, Prod.mk.injEq] at h
      obtain ⟨hfs, hres⟩ := h
      subst hfs hres
      refine ⟨rfl, hmem, ?_, ?_, rfl⟩
      · simp [Fs.write, Fs.mkdirP, Fs.addZip, hmem]
      · simp [Fs.write, Fs.mkdirP, Fs.addZip, hmem]

/-- A successful build only adds directories. -/
theorem build_dirs_mono (env : CliEnv) (fs : Fs)
    (assignment : PracticeAssignment) (outDir : Path) (bundleName : String)
    (makeZip : Bool) (sec : Option String) (fs' : Fs) (res : BundleResult)
    (h : build_assignment_ota_bundle env fs assignment outDir bundleName
      makeZip sec = Except.ok (fs', res)) :
    ∀ d ∈ fs.dirs, d ∈ fs'.dirs := by
  intro d hd
  rw [(build_ok_spec env fs assignment outDir bundleName makeZip sec fs' res h).2.2.2.1]
  exact List.mem_cons_of_mem _ hd

/-- After a successful build, the payload is readable back at
`<bundle_dir>/assignment.json`. -/
theorem build_read_assignment (env : CliEnv) (fs : Fs)
    (assignment : PracticeAssignment) (outDir : Path) (bundleName : String)
    (makeZip : Bool) (sec : Option String) (fs' : Fs) (res : BundleResult)
    (h : build_assignment_ota_bundle env fs assignment outDir bundleName
      makeZip sec = Except.ok (fs', res)) :
    fs'.read (res.bundle_dir ++ ["assignment.json"])
      = some (build_ota_payload env assignment sec) := by
  obtain ⟨hdir, hmem, hfiles, hdirs, hzip⟩ :=
    build_ok_spec env fs assignment outDir bundleName makeZip sec fs' res h
  rw [Fs.read, hfiles, hdir]
  rw [alookup_cons_ne _ _ _ _ (append_singleton_ne _ _ _ (by decide))]
  exact alookup_cons_self _ _ _

/-! ## Claim C7 — deterministic assignment identifiers -/

/-- C7: two builds from the same pack id, into arbitrary different output
roots and bundle names, write the identical assignment payload, whose
`session_id` and `assignment_id` are the stable namespace hash of the pack
id. -/
theorem c7_deterministic_assignment_ids (env : CliEnv) (pack_id : String)
    (pack : DancePack) (fs1 fs2 fs1' fs2' : Fs) (out1 out2 : Path)
    (name1 name2 : String) (z1 z2 : Bool) (sec : Option String)
    (r1 r2 : BundleResult)
    (_hpack : env.loadPackById pack_id = Except.ok pack)
    (h1 : build_assignment_ota_bundle env fs1
      (plan_assignment_from_pack_defaults pack_id
        (pack_to_assignment_defaults pack) pack) out1 name1 z1 sec
      = Except.ok (fs1', r1))
    (h2 : build_assignment_ota_bundle env fs2
      (plan_assignment_from_pack_defaults pack_id
        (pack_to_assignment_defaults pack) pack) out2 name2 z2 sec
      = Except.ok (fs2', r2)) :
    fs1'.read (r1.bundle_dir ++ ["assignment.json"])
      = fs2'.read (r2.bundle_dir ++ ["assignment.json"])
    ∧ fs1'.read (r1.bundle_dir ++ ["assignment.json"])
      = some (build_ota_payload env (plan_assignment_from_pack_defaults pack_id
          (pack_to_assignment_defaults pack) pack) sec)
    ∧ jlookup (build_ota_payload env (plan_assignment_from_pack_defaults pack_id
          (pack_to_assignment_defaults pack) pack) sec) "payload"
      = some (assignmentToJson (plan_assignment_from_pack_defaults pack_id
          (pack_to_assignment_defaults pack) pack))
    ∧ jlookup (assignmentToJson (plan_assignment_from_pack_defaults pack_id
          (pack_to_assignment_defaults pack) pack)) "session_id"
      = some (JVal.jstr (uuid5 NAMESPACE_DNS
          ("pack-default-session:" ++ pack_id)))
    ∧ jlookup (assignmentToJson (plan_assignment_from_pack_defaults pack_id
          (pack_to_assignment_defaults pack) pack)) "assignment_id"
      = some (JVal.jstr (uuid5 NAMESPACE_DNS
          ("pack-default-assignment:" ++ pack_id))) := by
  have e1 := build_read_assignment env fs1 _ out1 name1 z1 sec fs1' r1 h1
  have e2 := build_read_assignment env fs2 _ out2 name2 z2 sec fs2' r2 h2
  refine ⟨e1.trans e2.symm, e1, ?_, rfl, rfl⟩
  cases sec <;> rfl

/-- C7 (witness): building the rock pack into two different roots yields the
same `assignment.json` content. -/
theorem c7_deterministic_assignment_ids_witness :
    ∃ pr1 pr2 : Fs × BundleResult,
      build_assignment_ota_bundle sampleEnv Fs.empty
        (plan_assignment_from_pack_defaults "rock_straight_v1"
          (pack_to_assignment_defaults samplePackRock) samplePackRock)
        ["o1"] "b1" false none = Except.ok pr1
      ∧ build_assignment_ota_bundle sampleEnv Fs.empty
        (plan_assignment_from_pack_defaults "rock_straight_v1"
          (pack_to_assignment_defaults samplePackRock) samplePackRock)
        ["o2"] "b2" false none = Except.ok pr2
      ∧ pr1.1.read (pr1.2.bundle_dir ++ ["assignment.json"])
        = pr2.1.read (pr2.2.bundle_dir ++ ["assignment.json"]) :=
  ⟨_, _, rfl, rfl,
    (c7_deterministic_assignment_ids sampleEnv "rock_straight_v1"
      samplePackRock Fs.empty Fs.empty _ _ ["o1"] ["o2"] "b1" "b2"
      false false none _ _ rfl rfl rfl).1⟩

/-! ## Claim C6 — sibling name collisions are errors -/

/-- The multi-pack sub-bundle loop fails as soon as some binding's target
directory already exists. -/
theorem multiPackLoop_collision (env : CliEnv) (sec : Option String)
    (bundleDir : Path) :
    ∀ (bs : List PackAssignmentBinding) (fs : Fs),
      (∃ b ∈ bs, (bundleDir ++ [b.pack_id]) ∈ fs.dirs) →
      ∃ fsE e, multiPackLoop env sec bundleDir fs bs = (fsE, Except.error e) := by
  intro bs
  induction bs with
  | nil =>
    intro fs h
    obtain ⟨b, hb, _⟩ := h
    exact absurd hb (List.not_mem_nil b)
  | cons c rest ih =>
    intro fs h
    obtain ⟨b, hb, hdir⟩ := h
    cases hbuild : build_assignment_ota_bundle env fs
        (plan_assignment_from_pack_defaults c.pack_id c.defaults c.pack)
        bundleDir c.pack_id false sec with
    | error e => exact ⟨fs, e, by simp [multiPackLoop, hbuild]⟩
    | ok pr =>
      obtain ⟨fs1, res⟩ := pr
      rcases List.mem_cons.1 hb with rfl | hbrest
      · exact absurd hdir
          (build_ok_spec env fs _ bundleDir b.pack_id false sec fs1 res hbuild).2.1
      · have hmono := build_dirs_mono env fs _ bundleDir c.pack_id false sec
          fs1 res hbuild
        obtain ⟨fsE, e, hE⟩ := ih fs1 ⟨b, hbrest, hmono _ hdir⟩
        exact ⟨fsE, e, by simp [multiPackLoop, hbuild, hE]⟩

/-- C6: an already-existing destination directory makes the builder signal an
error instead of overwriting, and a pack list in which two sub-bundles would
share their directory name (the pack id) makes the multi-pack packaging loop
fail rather than reuse the first directory. -/
theorem c6_sibling_name_collision_error (env : CliEnv) (fs : Fs)
    (assignment : PracticeAssignment) (outDir : Path) (bundleName : String)
    (makeZip : Bool) (sec : Option String) :
    ((outDir ++ [bundleName]) ∈ fs.dirs →
      ∃ msg, build_assignment_ota_bundle env fs assignment outDir bundleName
        makeZip sec = Except.error (PyError.valueError msg))
    ∧ (∀ (bundleDir : Path) (fs₀ : Fs) (bs : List PackAssignmentBinding),
        ¬ (bs.map (fun b => b.pack_id)).Nodup →
        ∃ fsE e, multiPackLoop env sec bundleDir fs₀ bs
          = (fsE, Except.error e)) := by
  constructor
  · intro hmem
    refine ⟨"bundle dir exists: " ++ pathStr (outDir ++ [bundleName]), ?_⟩
    simp only [build_assignment_ota_bundle]
    rw [if_pos hmem]
  · intro bundleDir fs₀ bs
    induction bs generalizing fs₀ with
    | nil => intro hdup; exact absurd List.nodup_nil hdup
    | cons c rest ih =>
      intro hdup
      cases hbuild : build_assignment_ota_bundle env fs₀
          (plan_assignment_from_pack_defaults c.pack_id c.defaults c.pack)
          bundleDir c.pack_id false sec with
      | error e => exact ⟨fs₀, e, by simp [multiPackLoop, hbuild]⟩
      | ok pr =>
        obtain ⟨fs1, res⟩ := pr
        by_cases hnd : (rest.map (fun b => b.pack_id)).Nodup
        · have hin : c.pack_id ∈ rest.map (fun b => b.pack_id) := by
            by_contra hni
            exact hdup (List.nodup_cons.2 ⟨hni, hnd⟩)
          obtain ⟨b, hbmem, hbid⟩ := List.mem_map.1 hin
          have hdirs :=
            (build_ok_spec env fs₀ _ bundleDir c.pack_id false sec
              fs1 res hbuild).2.2.2.1
          have hbdir : (bundleDir ++ [b.pack_id]) ∈ fs1.dirs := by
            rw [hdirs, hbid]
            exact List.mem_cons_self _ _
          obtain ⟨fsE, e, hE⟩ :=
            multiPackLoop_collision env sec bundleDir rest fs1 ⟨b, hbmem, hbdir⟩
          exact ⟨fsE, e, by simp [multiPackLoop, hbuild, hE]⟩
        · obtain ⟨fsE, e, hE⟩ := ih fs1 hnd
          exact ⟨fsE, e, by simp [multiPackLoop, hbuild, hE]⟩

/-- C6 (witness): a duplicate pack id in the binding list makes the
multi-pack packaging loop fail. -/
theorem c6_sibling_name_collision_error_witness :
    ∃ fsE e, multiPackLoop sampleEnv none ["out", "root"] Fs.empty
      [sampleBindingRock, sampleBindingRock] = (fsE, Except.error e) :=
  (c6_sibling_name_collision_error sampleEnv Fs.empty
    (plan_assignment_from_pack_defaults "rock_straight_v1"
      (pack_to_assignment_defaults samplePackRock) samplePackRock)
    ["out"] "b" false none).2 ["out", "root"] Fs.empty
    [sampleBindingRock, sampleBindingRock] (by decide)

/-! ## Claim C5 — per-pack manifest shape and ordering -/

/-- The pack binding loop preserves the set's pack iteration order. -/
theorem loadBindings_pack_ids (env : CliEnv) :
    ∀ (pids : List String) (bs : List PackAssignmentBinding),
      loadBindings env pids = Except.ok bs →
      bs.map (fun b => b.pack_id) = pids := by
  intro pids
  induction pids with
  | nil =>
    intro bs h
    simp only [loadBindings, Except.ok.injEq] at h
    subst h
    rfl
  | cons pid rest ih =>
    intro bs h
    simp only [loadBindings] at h
    cases hp : env.loadPackById pid with
    | error e => rw [hp] at h; simp at h
    | ok pack =>
      rw [hp] at h
      cases hr : loadBindings env rest with
      | error e => rw [hr] at h; simp at h
      | ok bs' =>
        rw [hr] at h
        simp only [Except.ok.injEq] at h
        subst h
        simp [ih bs' hr]

/-- A successful per-pack loop produces one `outputs` entry and one bundle
result per binding, in binding order, each entry carrying its binding's
`dance_pack_id`. -/
theorem perPackLoop_ok_outputs (env : CliEnv) (mz : Bool)
    (sec : Option String) (outDir : Path) :
    ∀ (bs : List PackAssignmentBinding) (fs fs' : Fs) (outs : List JVal)
      (ress : List BundleResult),
      perPackLoop env mz sec outDir fs bs = (fs', Except.ok (outs, ress)) →
      outs.map (fun o => jlookup o "dance_pack_id")
        = bs.map (fun b => some (JVal.jstr b.pack_id))
      ∧ outs.length = bs.length
      ∧ ress.length = bs.length := by
  intro bs
  induction bs with
  | nil =>
    intro fs fs' outs ress h
    simp only [perPackLoop, Prod.mk.injEq, Except.ok.injEq] at h
    obtain ⟨-, houts, hress⟩ := h
    subst houts hress
    exact ⟨rfl, rfl, rfl⟩
  | cons b rest ih =>
    intro fs fs' outs ress h
    simp only [perPackLoop] at h
    cases hbuild : build_assignment_ota_bundle env fs
        (plan_assignment_from_pack_defaults b.pack_id b.defaults b.pack)
        outDir ("ota_bundle__" ++ b.pack_id) mz sec with
    | error e => rw [hbuild] at h; simp at h
    | ok pr =>
      obtain ⟨fs1, res⟩ := pr
      rw [hbuild] at h
      dsimp only at h
      rcases hloop : perPackLoop env mz sec outDir fs1 rest with ⟨fs2, r2⟩
      cases r2 with
      | error e => rw [hloop] at h; simp at h
      | ok pr2 =>
        obtain ⟨outs2, ress2⟩ := pr2
        rw [hloop] at h
        simp only [Prod.mk.injEq, Except.ok.injEq] at h
        obtain ⟨-, houts, hress⟩ := h
        subst houts hress
        obtain ⟨ho, hlo, hlr⟩ := ih fs1 fs2 outs2 ress2 hloop
        refine ⟨?_, by simp [hlo], by simp [hlr]⟩
        simp only [List.map_cons, ho, List.cons.injEq]
        exact ⟨rfl, trivial⟩

/-- C5: a successful per-pack build writes a manifest whose `outputs` array
has exactly one entry per pack of the source set, in the set's pack
iteration order, each carrying its own `dance_pack_id`; `set` carries the
set id and the full pack id list, and `len(outputs) = len(set.pack_ids)`. -/
theorem c5_per_pack_manifest (env : CliEnv) (args : CliArgs)
    (sec : Option String) (manifestPath : Path) (fs : Fs) (ps : PackSet)
    (hset : (if truthy args.dance_pack_set_path
        then env.loadSetFromFile (args.dance_pack_set_path.getD "")
        else env.loadSetById (args.dance_pack_set.getD ""))
      = Except.ok ps)
    (hmulti : args.multi_pack = false)
    (hok : (buildBundlesFromPackSet env args sec manifestPath fs).exit
      = Except.ok 0) :
    ∃ outputs : List JVal,
      (buildBundlesFromPackSet env args sec manifestPath fs).fs.read
          manifestPath
        = some (perPackManifest env.started env.elapsed ps ps.packs outputs)
      ∧ outputs.map (fun o => jlookup o "dance_pack_id")
        = ps.packs.map (fun pid => some (JVal.jstr pid))
      ∧ outputs.length = ps.packs.length
      ∧ (buildBundlesFromPackSet env args sec manifestPath fs).results.length
        = ps.packs.length
      ∧ jlookup (perPackManifest env.started env.elapsed ps ps.packs outputs)
          "mode" = some (JVal.jstr "per-pack")
      ∧ jlookup (perPackManifest env.started env.elapsed ps ps.packs outputs)
          "set" = some (setJson ps ps.packs)
      ∧ jlookup (setJson ps ps.packs) "id" = some (JVal.jstr ps.id)
      ∧ jlookup (setJson ps ps.packs) "pack_ids"
        = some (JVal.jarr (ps.packs.map JVal.jstr)) := by
  revert hok
  unfold buildBundlesFromPackSet
  rw [hset]
  dsimp only
  cases hval : validateSetRefs env ps.packs with
  | error e => dsimp only; intro hok; simp at hok
  | ok u =>
    dsimp only
    cases hsd : get_pack_defaults_from_set env ps with
    | error e => dsimp only; intro hok; simp at hok
    | ok sd =>
      dsimp only
      have hids : sd.packs.map (fun b => b.pack_id) = ps.packs := by
        revert hsd
        unfold get_pack_defaults_from_set
        cases hlb : loadBindings env ps.packs with
        | error e => intro hsd; simp [Except.map] at hsd
        | ok bs =>
          intro hsd
          simp only [Except.map, Except.ok.injEq] at hsd
          subst hsd
          exact loadBindings_pack_ids env ps.packs bs hlb
      simp only [hmulti, Bool.false_eq_true, if_false]
      rcases hloop : perPackLoop env args.zip sec [args.out]
          (fs.mkdirP [args.out]) sd.packs with ⟨fs2, r2⟩
      cases r2 with
      | error e => dsimp only; intro hok; simp at hok
      | ok pr =>
        obtain ⟨outs, ress⟩ := pr
        dsimp only
        intro hok
        obtain ⟨ho, hlo, hlr⟩ :=
          perPackLoop_ok_outputs env args.zip sec [args.out] sd.packs
            (fs.mkdirP [args.out]) fs2 outs ress hloop
        refine ⟨outs, ?_, ?_, ?_, ?_, rfl, rfl, rfl, rfl⟩
        · rw [hids]
          simp [Fs.read, Fs.write, alookup]
        · rw [ho, ← hids, List.map_map]
          rfl
        · rw [hlo, ← hids, List.length_map]
        · rw [hlr, ← hids, List.length_map]

/-- C5 (witness): the per-pack build of the two-pack sample set produces the
claimed manifest shape. -/
theorem c5_per_pack_manifest_witness :
    ∃ outputs : List JVal,
      (buildBundlesFromPackSet sampleEnv argsPerPack none
          ["out", "ota_manifest.json"] Fs.empty).fs.read
          ["out", "ota_manifest.json"]
        = some (perPackManifest sampleEnv.started sampleEnv.elapsed sampleSet
            sampleSet.packs outputs)
      ∧ outputs.map (fun o => jlookup o "dance_pack_id")
        = sampleSet.packs.map (fun pid => some (JVal.jstr pid))
      ∧ outputs.length = sampleSet.packs.length
      ∧ (buildBundlesFromPackSet sampleEnv argsPerPack none
          ["out", "ota_manifest.json"] Fs.empty).results.length
        = sampleSet.packs.length
      ∧ jlookup (perPackManifest sampleEnv.started sampleEnv.elapsed sampleSet
          sampleSet.packs outputs) "mode" = some (JVal.jstr "per-pack")
      ∧ jlookup (perPackManifest sampleEnv.started sampleEnv.elapsed sampleSet
          sampleSet.packs outputs) "set" = some (setJson sampleSet sampleSet.packs)
      ∧ jlookup (setJson sampleSet sampleSet.packs) "id"
        = some (JVal.jstr sampleSet.id)
      ∧ jlookup (setJson sampleSet sampleSet.packs) "pack_ids"
        = some (JVal.jarr (sampleSet.packs.map JVal.jstr)) :=
  c5_per_pack_manifest sampleEnv argsPerPack none ["out", "ota_manifest.json"]
    Fs.empty sampleSet rfl rfl rfl

/-! ## Claim C1 — verifier congruence and frame lemmas

The verifier only reads paths strictly below the bundle root, so its verdict
is stable under writes that are siblings of the root or at most as deep as
the root. -/

theorem verifyArtifacts_congr (env : CliEnv) (r1 r2 : Path → Option JVal)
    (h : ∀ rel, rel ≠ [] → r2 rel = r1 rel) :
    ∀ recs, verifyArtifacts env r2 recs = verifyArtifacts env r1 recs := by
  intro recs
  induction recs with
  | nil => rfl
  | cons rc rest ih =>
    obtain ⟨rel, rec⟩ := rc
    simp only [verifyArtifacts]
    rw [h [rel] (by simp)]
    cases r1 [rel] with
    | none => rfl
    | some content =>
      dsimp only
      by_cases hd : env.digest (jserialize content) = rec
      · rw [if_pos hd, if_pos hd, ih]
      · rw [if_neg hd, if_neg hd]

theorem verifySubBundles_congr (env : CliEnv) (r1 r2 : Path → Option JVal)
    (h : ∀ rel, 2 ≤ rel.length → r2 rel = r1 rel) :
    ∀ subs, verifySubBundles env r2 subs = verifySubBundles env r1 subs := by
  intro subs
  induction subs with
  | nil => rfl
  | cons s rest ih =>
    simp only [verifySubBundles]
    rw [h [s, "manifest.json"] (by simp)]
    cases r1 [s, "manifest.json"] with
    | none => rfl
    | some m =>
      dsimp only
      cases decodeRecords m with
      | none => rfl
      | some recs =>
        dsimp only
        have hart : verifyArtifacts env (fun rel => r2 (s :: rel)) recs
            = verifyArtifacts env (fun rel => r1 (s :: rel)) recs := by
          apply verifyArtifacts_congr
          intro rel hrel
          apply h
          cases rel with
          | nil => exact absurd rfl hrel
          | cons a t => simp [List.length_cons]
        rw [hart]
        cases verifyArtifacts env (fun rel => r1 (s :: rel)) recs with
        | ok u => dsimp only; exact ih
        | error e => rfl

theorem verify_bundle_integrity_congr (env : CliEnv)
    (r1 r2 : Path → Option JVal)
    (h : ∀ rel, rel ≠ [] → r2 rel = r1 rel) :
    verify_bundle_integrity env r2 = verify_bundle_integrity env r1 := by
  simp only [verify_bundle_integrity]
  rw [h ["manifest.json"] (by simp), h ["bundle_manifest.json"] (by simp)]
  cases r1 ["manifest.json"] with
  | some m =>
    dsimp only
    cases decodeRecords m with
    | none => rfl
    | some recs =>
      dsimp only
      rw [verifyArtifacts_congr env r1 r2 h recs]
  | none =>
    dsimp only
    cases r1 ["bundle_manifest.json"] with
    | none => rfl
    | some w =>
      dsimp only
      cases decodeWrapperDirs w with
      | none => rfl
      | some subs =>
        dsimp only
        rw [verifySubBundles_congr env r1 r2 ?_ subs]
        intro rel h2
        apply h
        intro hnil
        subst hnil
        simp at h2

theorem path_ne_of_length {p q : Path} (h : p.length ≠ q.length) : p ≠ q :=
  fun hh => h (by rw [hh])

theorem sibling_path_ne (root other : Path) (rel : Path) (x : String)
    (hlen : other.length = root.length) (hne : other ≠ root) :
    root ++ rel ≠ other ++ [x] := by
  intro h
  apply hne
  have h1 := List.take_left root rel
  rw [h] at h1
  rw [← hlen] at h1
  rw [List.take_left other [x]] at h1
  exact h1

theorem mkdirP_files (fs : Fs) (d : Path) : (fs.mkdirP d).files = fs.files := by
  unfold Fs.mkdirP
  split <;> rfl

theorem mkdirP_dirs_mem (fs : Fs) (d d' : Path) (h : d' ∈ fs.dirs) :
    d' ∈ (fs.mkdirP d).dirs := by
  unfold Fs.mkdirP
  split
  · exact h
  · exact List.mem_cons_of_mem _ h

theorem mkdirP_dirs_self (fs : Fs) (d : Path) : d ∈ (fs.mkdirP d).dirs := by
  unfold Fs.mkdirP
  split
  · assumption
  · exact List.mem_cons_self _ _

theorem readUnder_write_shallow (fs : Fs) (p : Path) (v : JVal) (root : Path)
    (hlen : p.length ≤ root.length) :
    ∀ rel, rel ≠ [] → readUnder (fs.write p v) root rel = readUnder fs root rel := by
  intro rel hrel
  simp only [readUnder, Fs.write]
  apply alookup_cons_ne
  apply path_ne_of_length
  simp only [List.length_append]
  have h1 : 0 < rel.length := List.length_pos.2 hrel
  omega

theorem readUnder_write_sibling (fs : Fs) (v : JVal) (root other : Path)
    (x : String) (hlen : other.length = root.length) (hne : other ≠ root) :
    ∀ rel, readUnder (fs.write (other ++ [x]) v) root rel = readUnder fs root rel := by
  intro rel
  simp only [readUnder, Fs.write]
  exact alookup_cons_ne _ _ _ _ (sibling_path_ne root other rel x hlen hne)

theorem readUnder_mkdirP (fs : Fs) (d root : Path) :
    readUnder (fs.mkdirP d) root = readUnder fs root := by
  funext rel
  simp only [readUnder, mkdirP_files]

theorem readUnder_addZip (fs : Fs) (p : Path) (c : List (Path × JVal))
    (root : Path) : readUnder (fs.addZip p c) root = readUnder fs root := rfl

theorem not_underDir_shallow (base p : Path) (hlen : p.length ≤ base.length) :
    ¬ underDir base p := by
  intro h
  exact absurd h.2 (by omega)

theorem not_underDir_sibling (base other : Path) (x : String)
    (hlen : other.length = base.length) (hne : other ≠ base) :
    ¬ underDir base (other ++ [x]) := by
  intro h
  apply hne
  have h1 := h.1
  rw [← hlen, List.take_left] at h1
  exact h1

theorem zipOfDir_write_not_under (fs : Fs) (p : Path) (v : JVal) (base : Path)
    (h : ¬ underDir base p) :
    zipOfDir (fs.write p v) base = zipOfDir fs base := by
  simp only [zipOfDir, Fs.write]
  rw [List.filterMap_cons_none]
  simp [h]

theorem zipOfDir_mkdirP (fs : Fs) (d base : Path) :
    zipOfDir (fs.mkdirP d) base = zipOfDir fs base := by
  simp only [zipOfDir, mkdirP_files]

theorem zipOfDir_addZip (fs : Fs) (p : Path) (c : List (Path × JVal))
    (base : Path) : zipOfDir (fs.addZip p c) base = zipOfDir fs base := rfl

theorem bundleVerifies_congr (env : CliEnv) (fs1 fs2 : Fs) (root : Path)
    (h : ∀ rel, rel ≠ [] → readUnder fs2 root rel = readUnder fs1 root rel) :
    bundleVerifies env fs1 root → bundleVerifies env fs2 root := by
  rintro ⟨m, recs, hm, hd, hv⟩
  refine ⟨m, recs, ?_, hd, ?_⟩
  · rw [h ["manifest.json"] (by simp)]
    exact hm
  · rw [verifyArtifacts_congr env (readUnder fs1 root) (readUnder fs2 root) h recs]
    exact hv

theorem bundleVerifies_integrity_ok (env : CliEnv) (fs : Fs) (root : Path)
    (h : bundleVerifies env fs root) :
    verify_bundle_integrity env (readUnder fs root) = Except.ok () := by
  obtain ⟨m, recs, hm, hd, hv⟩ := h
  unfold verify_bundle_integrity
  rw [hm]
  dsimp only
  rw [hd]
  exact hv

theorem bundleVerifies_folder_ok (env : CliEnv) (fs : Fs) (root : Path)
    (h : bundleVerifies env fs root) : cmdOtaVerifyFolder env fs root = 0 := by
  unfold cmdOtaVerifyFolder
  rw [bundleVerifies_integrity_ok env fs root h]

/-! ## Claim C1 — what a single successful build guarantees -/

theorem decodeRecords_bundleManifest_single (env : CliEnv) (d : String)
    (sec : Option String) :
    decodeRecords (bundleManifest env [("assignment.json", d)] sec)
      = some [("assignment.json", d)] := by
  cases sec <;> rfl

theorem manifestSignatureOk_built (env : CliEnv) (d : String)
    (sec : Option String) :
    manifestSignatureOk env (bundleManifest env [("assignment.json", d)] sec)
      sec = true := by
  cases sec with
  | none => rfl
  | some s =>
    simp [manifestSignatureOk, bundleManifest, bundleManifestCoreFields,
      lookupKey]

theorem build_readUnder_manifest (env : CliEnv) (fs : Fs)
    (assignment : PracticeAssignment) (outDir : Path) (bundleName : String)
    (makeZip : Bool) (sec : Option String) (fs' : Fs) (res : BundleResult)
    (h : build_assignment_ota_bundle env fs assignment outDir bundleName
      makeZip sec = Except.ok (fs', res)) :
    readUnder fs' res.bundle_dir ["manifest.json"]
      = some (bundleManifest env [("assignment.json",
          env.digest (jserialize (build_ota_payload env assignment sec)))] sec) := by
  obtain ⟨hdir, hmem, hfiles, hdirs, hzip⟩ :=
    build_ok_spec env fs assignment outDir bundleName makeZip sec fs' res h
  simp only [readUnder, hfiles, hdir]
  exact alookup_cons_self _ _ _

theorem build_bundleVerifies (env : CliEnv) (fs : Fs)
    (assignment : PracticeAssignment) (outDir : Path) (bundleName : String)
    (makeZip : Bool) (sec : Option String) (fs' : Fs) (res : BundleResult)
    (h : build_assignment_ota_bundle env fs assignment outDir bundleName
      makeZip sec = Except.ok (fs', res)) :
    bundleVerifies env fs' res.bundle_dir := by
  obtain ⟨hdir, hmem, hfiles, hdirs, hzip⟩ :=
    build_ok_spec env fs assignment outDir bundleName makeZip sec fs' res h
  refine ⟨bundleManifest env [("assignment.json",
      env.digest (jserialize (build_ota_payload env assignment sec)))] sec,
    [("assignment.json",
      env.digest (jserialize (build_ota_payload env assignment sec)))],
    build_readUnder_manifest env fs assignment outDir bundleName makeZip sec
      fs' res h,
    decodeRecords_bundleManifest_single env _ sec, ?_⟩
  have hread : readUnder fs' res.bundle_dir ["assignment.json"]
      = some (build_ota_payload env assignment sec) :=
    build_read_assignment env fs assignment outDir bundleName makeZip sec
      fs' res h
  simp only [verifyArtifacts]
  rw [hread]
  dsimp only
  rw [if_pos rfl]

theorem findBundleRoot_head (rest : List Path) :
    findBundleRoot (["manifest.json"] :: rest) = Except.ok [] := by
  unfold findBundleRoot
  rw [if_pos (List.mem_cons_self _ _)]

/-- The zip-form verifier accepts an archive whose root holds a built
manifest and its matching payload, whatever else the archive carries below
them. -/
theorem verify_zip_built_shape (env : CliEnv) (payload : JVal)
    (sec : Option String) (junk : List (Path × JVal)) :
    verify_zip_bundle env
      ((["manifest.json"], bundleManifest env [("assignment.json",
          env.digest (jserialize payload))] sec)
        :: (["assignment.json"], payload) :: junk) sec = Except.ok () := by
  simp only [verify_zip_bundle, List.map_cons]
  rw [findBundleRoot_head]
  dsimp only
  simp only [List.nil_append]
  rw [alookup_cons_self]
  dsimp only
  rw [manifestSignatureOk_built]
  rw [if_pos rfl]
  unfold verify_bundle_integrity
  dsimp only
  rw [alookup_cons_self]
  dsimp only
  rw [decodeRecords_bundleManifest_single]
  dsimp only
  simp only [verifyArtifacts]
  rw [alookup_cons_ne _ _ _ _ (by decide), alookup_cons_self]
  dsimp only
  rw [if_pos rfl]

/-- Zipping a freshly built bundle directory and running the zip-form
verifier with the build's secret succeeds: root discovery finds the
bundle's own manifest at the archive root, the signature recomputes, and
every digest matches. -/
theorem build_zip_verifies (env : CliEnv) (fs : Fs)
    (assignment : PracticeAssignment) (outDir : Path) (bundleName : String)
    (makeZip : Bool) (sec : Option String) (fs' : Fs) (res : BundleResult)
    (h : build_assignment_ota_bundle env fs assignment outDir bundleName
      makeZip sec = Except.ok (fs', res)) :
    verify_zip_bundle env (zipOfDir fs' res.bundle_dir) sec = Except.ok () := by
  obtain ⟨hdir, hmem, hfiles, hdirs, hzip⟩ :=
    build_ok_spec env fs assignment outDir bundleName makeZip sec fs' res h
  have hund1 : underDir (outDir ++ [bundleName])
      (outDir ++ [bundleName] ++ ["manifest.json"]) :=
    ⟨List.take_left _ _, by simp⟩
  have hund2 : underDir (outDir ++ [bundleName])
      (outDir ++ [bundleName] ++ ["assignment.json"]) :=
    ⟨List.take_left _ _, by simp⟩
  have hz : zipOfDir fs' res.bundle_dir
      = (["manifest.json"], bundleManifest env [("assignment.json",
          env.digest (jserialize (build_ota_payload env assignment sec)))] sec)
        :: (["assignment.json"], build_ota_payload env assignment sec)
        :: fs.files.filterMap (fun e =>
             if underDir (outDir ++ [bundleName]) e.1
             then some (relativeTo (outDir ++ [bundleName]) e.1, e.2)
             else none) := by
    simp only [zipOfDir, hfiles, hdir, List.filterMap_cons]
    rw [if_pos hund1, if_pos hund2]
    simp [relativeTo, List.drop_left]
  rw [hz]
  exact verify_zip_built_shape env (build_ota_payload env assignment sec) sec _

/-! ## Claim C1 — the per-pack loop keeps every built bundle verifiable -/

/-- Invariant of a successful per-pack loop: directories only grow, the
content of any pre-existing sibling bundle directory is untouched (reads and
zips), only paths at bundle-file depth are written, and every bundle the
loop reports verifies — in folder form and as a zip of its directory — in
the loop's final filesystem. -/
theorem perPackLoop_ok_invariant (env : CliEnv) (mz : Bool)
    (sec : Option String) (outDir : Path) :
    ∀ (bs : List PackAssignmentBinding) (fs fs' : Fs) (outs : List JVal)
      (ress : List BundleResult),
      perPackLoop env mz sec outDir fs bs = (fs', Except.ok (outs, ress)) →
      (∀ d ∈ fs.dirs, d ∈ fs'.dirs)
      ∧ (∀ root, root ∈ fs.dirs → root.length = outDir.length + 1 →
          (∀ rel, rel ≠ [] → readUnder fs' root rel = readUnder fs root rel)
          ∧ zipOfDir fs' root = zipOfDir fs root)
      ∧ (∀ q : Path, q.length ≠ outDir.length + 2 →
          alookup fs'.files q = alookup fs.files q)
      ∧ (∀ r ∈ ress, r.bundle_dir ∈ fs'.dirs
          ∧ r.bundle_dir.length = outDir.length + 1
          ∧ bundleVerifies env fs' r.bundle_dir
          ∧ verify_zip_bundle env (zipOfDir fs' r.bundle_dir) sec
            = Except.ok ()) := by
  intro bs
  induction bs with
  | nil =>
    intro fs fs' outs ress h
    simp only [perPackLoop, Prod.mk.injEq, Except.ok.injEq] at h
    obtain ⟨hfs, houts, hress⟩ := h
    subst hfs houts hress
    exact ⟨fun d hd => hd,
      fun root hr hl => ⟨fun rel hrel => rfl, rfl⟩,
      fun q hq => rfl,
      fun r hr => absurd hr (List.not_mem_nil r)⟩
  | cons b rest ih =>
    intro fs fs' outs ress h
    simp only [perPackLoop] at h
    cases hbuild : build_assignment_ota_bundle env fs
        (plan_assignment_from_pack_defaults b.pack_id b.defaults b.pack)
        outDir ("ota_bundle__" ++ b.pack_id) mz sec with
    | error e => rw [hbuild] at h; simp at h
    | ok pr =>
      obtain ⟨fs1, res⟩ := pr
      rw [hbuild] at h
      dsimp only at h
      rcases hloop : perPackLoop env mz sec outDir fs1 rest with ⟨fs2, r2⟩
      cases r2 with
      | error e => rw [hloop] at h; simp at h
      | ok pr2 =>
        obtain ⟨outs2, ress2⟩ := pr2
        rw [hloop] at h
        simp only [Prod.mk.injEq, Except.ok.injEq] at h
        obtain ⟨hfs2, houts, hress⟩ := h
        subst hfs2 houts hress
        obtain ⟨hdir, hmem, hfiles, hdirs, hzipo⟩ :=
          build_ok_spec env fs _ outDir _ mz sec fs1 res hbuild
        obtain ⟨ihmono, ihpres, ihlen, ihress⟩ := ih fs1 fs2 outs2 ress2 hloop
        have step_mono : ∀ d ∈ fs.dirs, d ∈ fs1.dirs := by
          intro d hd
          rw [hdirs]
          exact List.mem_cons_of_mem _ hd
        have step_pres : ∀ root, root ∈ fs.dirs →
            root.length = outDir.length + 1 →
            (∀ rel, rel ≠ [] → readUnder fs1 root rel = readUnder fs root rel)
            ∧ zipOfDir fs1 root = zipOfDir fs root := by
          intro root hr hl
          have hbne : outDir ++ ["ota_bundle__" ++ b.pack_id] ≠ root :=
            fun hcontra => hmem (hcontra ▸ hr)
          have hblen : (outDir ++ ["ota_bundle__" ++ b.pack_id]).length
              = root.length := by
            simp [List.length_append, hl]
          constructor
          · intro rel hrel
            simp only [readUnder, hfiles]
            rw [alookup_cons_ne _ _ _ _
              (sibling_path_ne root _ rel _ hblen hbne)]
            rw [alookup_cons_ne _ _ _ _
              (sibling_path_ne root _ rel _ hblen hbne)]
          · simp only [zipOfDir, hfiles, List.filterMap_cons]
            rw [if_neg (not_underDir_sibling root _ "manifest.json" hblen hbne)]
            rw [if_neg (not_underDir_sibling root _ "assignment.json" hblen hbne)]
        have step_len : ∀ q : Path, q.length ≠ outDir.length + 2 →
            alookup fs1.files q = alookup fs.files q := by
          intro q hq
          rw [hfiles]
          rw [alookup_cons_ne _ _ _ _
            (path_ne_of_length (by simp [List.length_append]; omega))]
          rw [alookup_cons_ne _ _ _ _
            (path_ne_of_length (by simp [List.length_append]; omega))]
        refine ⟨fun d hd => ihmono d (step_mono d hd), ?_, ?_, ?_⟩
        · intro root hr hl
          obtain ⟨p1, z1⟩ := step_pres root hr hl
          obtain ⟨p2, z2⟩ := ihpres root (step_mono root hr) hl
          exact ⟨fun rel hrel => (p2 rel hrel).trans (p1 rel hrel),
            z2.trans z1⟩
        · exact fun q hq => (ihlen q hq).trans (step_len q hq)
        · intro r hr
          rcases List.mem_cons.1 hr with rfl | hrrest
          · have hlen : r.bundle_dir.length = outDir.length + 1 := by
              rw [hdir]
              simp [List.length_append]
            have hmem1 : r.bundle_dir ∈ fs1.dirs := by
              rw [hdir, hdirs]
              exact List.mem_cons_self _ _
            have hbv : bundleVerifies env fs1 r.bundle_dir :=
              build_bundleVerifies env fs _ outDir _ mz sec fs1 r hbuild
            have hzv : verify_zip_bundle env (zipOfDir fs1 r.bundle_dir) sec
                = Except.ok () :=
              build_zip_verifies env fs _ outDir _ mz sec fs1 r hbuild
            obtain ⟨pres, zpres⟩ := ihpres r.bundle_dir hmem1 hlen
            refine ⟨ihmono _ hmem1, hlen,
              bundleVerifies_congr env fs1 fs2 r.bundle_dir pres hbv, ?_⟩
            rw [zpres]
            exact hzv
          · exact ihress r hrrest

theorem readUnder_cons (fs : Fs) (root : Path) (s : String) (rel : Path) :
    readUnder fs root (s :: rel) = readUnder fs (root ++ [s]) rel := by
  simp only [readUnder]
  congr 1
  simp

/-- Invariant of a successful multi-pack sub-bundle loop: directories only
grow, pre-existing sibling sub-bundles and shallower paths are untouched,
the collected wrapper entries decode to the pack ids in order, and the
wrapper-driven verification of all the sub-bundles succeeds under any reader
that agrees with the loop's final filesystem below the combined root. -/
theorem multiPackLoop_ok_invariant (env : CliEnv) (sec : Option String)
    (bundleDir : Path) :
    ∀ (bs : List PackAssignmentBinding) (fs fs' : Fs) (outs : List JVal)
      (ress : List BundleResult),
      multiPackLoop env sec bundleDir fs bs = (fs', Except.ok (outs, ress)) →
      (∀ d ∈ fs.dirs, d ∈ fs'.dirs)
      ∧ (∀ root, root ∈ fs.dirs → root.length = bundleDir.length + 1 →
          (∀ rel, rel ≠ [] → readUnder fs' root rel = readUnder fs root rel))
      ∧ (∀ q : Path, q.length ≠ bundleDir.length + 2 →
          alookup fs'.files q = alookup fs.files q)
      ∧ outs.mapM (fun x => match jlookup x "sub_bundle_dir" with
          | some (JVal.jstr s) => some s
          | _ => none) = some (bs.map (fun b => b.pack_id))
      ∧ (∀ fsF : Fs,
          (∀ rel, 2 ≤ rel.length →
            readUnder fsF bundleDir rel = readUnder fs' bundleDir rel) →
          verifySubBundles env (readUnder fsF bundleDir)
            (bs.map (fun b => b.pack_id)) = Except.ok ()) := by
  intro bs
  induction bs with
  | nil =>
    intro fs fs' outs ress h
    simp only [multiPackLoop, Prod.mk.injEq, Except.ok.injEq] at h
    obtain ⟨hfs, houts, hress⟩ := h
    subst hfs houts hress
    exact ⟨fun d hd => hd,
      fun root hr hl => fun rel hrel => rfl,
      fun q hq => rfl, rfl,
      fun fsF hagree => rfl⟩
  | cons b rest ih =>
    intro fs fs' outs ress h
    simp only [multiPackLoop] at h
    cases hbuild : build_assignment_ota_bundle env fs
        (plan_assignment_from_pack_defaults b.pack_id b.defaults b.pack)
        bundleDir b.pack_id false sec with
    | error e => rw [hbuild] at h; simp at h
    | ok pr =>
      obtain ⟨fs1, res⟩ := pr
      rw [hbuild] at h
      dsimp only at h
      rcases hloop : multiPackLoop env sec bundleDir fs1 rest with ⟨fs2, r2⟩
      cases r2 with
      | error e => rw [hloop] at h; simp at h
      | ok pr2 =>
        obtain ⟨outs2, ress2⟩ := pr2
        rw [hloop] at h
        simp only [Prod.mk.injEq, Except.ok.injEq] at h
        obtain ⟨hfs2, houts, hress⟩ := h
        subst hfs2 houts hress
        obtain ⟨hdir, hmem, hfiles, hdirs, hzipo⟩ :=
          build_ok_spec env fs _ bundleDir _ false sec fs1 res hbuild
        obtain ⟨ihmono, ihpres, ihlen, ihouts, ihsub⟩ :=
          ih fs1 fs2 outs2 ress2 hloop
        have step_mono : ∀ d ∈ fs.dirs, d ∈ fs1.dirs := by
          intro d hd
          rw [hdirs]
          exact List.mem_cons_of_mem _ hd
        have step_pres : ∀ root, root ∈ fs.dirs →
            root.length = bundleDir.length + 1 →
            ∀ rel, rel ≠ [] →
              readUnder fs1 root rel = readUnder fs root rel := by
          intro root hr hl rel hrel
          have hbne : bundleDir ++ [b.pack_id] ≠ root :=
            fun hcontra => hmem (hcontra ▸ hr)
          have hblen : (bundleDir ++ [b.pack_id]).length = root.length := by
            simp [List.length_append, hl]
          simp only [readUnder, hfiles]
          rw [alookup_cons_ne _ _ _ _
            (sibling_path_ne root _ rel _ hblen hbne)]
          rw [alookup_cons_ne _ _ _ _
            (sibling_path_ne root _ rel _ hblen hbne)]
        have step_len : ∀ q : Path, q.length ≠ bundleDir.length + 2 →
            alookup fs1.files q = alookup fs.files q := by
          intro q hq
          rw [hfiles]
          rw [alookup_cons_ne _ _ _ _
            (path_ne_of_length (by simp [List.length_append]; omega))]
          rw [alookup_cons_ne _ _ _ _
            (path_ne_of_length (by simp [List.length_append]; omega))]
        have hsubroot_len : (bundleDir ++ [b.pack_id]).length
            = bundleDir.length + 1 := by
          simp [List.length_append]
        have hsubroot_mem : (bundleDir ++ [b.pack_id]) ∈ fs1.dirs := by
          rw [hdirs]
          exact List.mem_cons_self _ _
        have hbv2 : bundleVerifies env fs2 (bundleDir ++ [b.pack_id]) := by
          refine bundleVerifies_congr env fs1 fs2 (bundleDir ++ [b.pack_id])
            (ihpres _ hsubroot_mem hsubroot_len) ?_
          have := build_bundleVerifies env fs _ bundleDir _ false sec
            fs1 res hbuild
          rw [hdir] at this
          exact this
        have hhead : jlookup (multiPackSubOutput b res bundleDir)
            "sub_bundle_dir" = some (JVal.jstr b.pack_id) := by
          have hps : pathStr (relativeTo bundleDir res.bundle_dir)
              = b.pack_id := by
            rw [hdir]
            unfold relativeTo
            rw [List.drop_left]
            rfl
          simp [multiPackSubOutput, jlookup, lookupKey, hps]
        refine ⟨fun d hd => ihmono d (step_mono d hd), ?_, ?_, ?_, ?_⟩
        · intro root hr hl
          intro rel hrel
          exact (ihpres root (step_mono root hr) hl rel hrel).trans
            (step_pres root hr hl rel hrel)
        · exact fun q hq => (ihlen q hq).trans (step_len q hq)
        · simp only [List.mapM_cons, List.map_cons, ihouts, hhead]
          rfl
        · intro fsF hagree
          simp only [List.map_cons, verifySubBundles]
          obtain ⟨m, recs, hm, hd2, hv⟩ := hbv2
          have hread_mj : readUnder fsF bundleDir [b.pack_id, "manifest.json"]
              = some m := by
            rw [hagree [b.pack_id, "manifest.json"] (by simp)]
            rw [readUnder_cons]
            exact hm
          rw [hread_mj]
          dsimp only
          rw [hd2]
          dsimp only
          have hart : verifyArtifacts env
              (fun rel => readUnder fsF bundleDir (b.pack_id :: rel)) recs
              = verifyArtifacts env
                (readUnder fs2 (bundleDir ++ [b.pack_id])) recs := by
            apply verifyArtifacts_congr
            intro rel hrel
            rw [hagree (b.pack_id :: rel) (by
              cases rel with
              | nil => exact absurd rfl hrel
              | cons a t => simp [List.length_cons])]
            rw [readUnder_cons]
          rw [hart, hv]
          dsimp only
          exact ihsub fsF hagree

theorem readUnder_write_child_deep (fs : Fs) (v : JVal) (root : Path)
    (x : String) :
    ∀ rel, 2 ≤ rel.length →
      readUnder (fs.write (root ++ [x]) v) root rel = readUnder fs root rel := by
  intro rel h2
  simp only [readUnder, Fs.write]
  apply alookup_cons_ne
  intro hcontra
  have hrel := (List.append_right_inj root).1 hcontra
  rw [hrel] at h2
  simp at h2

/-- Folder-form verification of a freshly assembled multi-pack combined root
through its wrapper manifest. -/
theorem multi_wrapper_integrity (env : CliEnv) (_sec : Option String)
    (bundleDir : Path) (fs2 fs4 : Fs) (outs : List JVal)
    (ps : PackSet) (pack_ids ids : List String) (mp : Path) (top : JVal)
    (houts : outs.mapM (fun x => match jlookup x "sub_bundle_dir" with
        | some (JVal.jstr s) => some s
        | _ => none) = some ids)
    (hsubs : ∀ fsF : Fs,
      (∀ rel, 2 ≤ rel.length →
        readUnder fsF bundleDir rel = readUnder fs2 bundleDir rel) →
      verifySubBundles env (readUnder fsF bundleDir) ids = Except.ok ())
    (hnomanifest : alookup fs2.files (bundleDir ++ ["manifest.json"]) = none)
    (h4 : fs4.files = (mp, top)
      :: (bundleDir ++ ["bundle_manifest.json"],
          multiPackInternalManifest ps pack_ids outs) :: fs2.files)
    (hmp : mp.length ≤ 2) (hblen : bundleDir.length = 2) :
    verify_bundle_integrity env (readUnder fs4 bundleDir) = Except.ok () := by
  have hr_mj : readUnder fs4 bundleDir ["manifest.json"] = none := by
    simp only [readUnder, h4]
    rw [alookup_cons_ne _ _ _ _
      (path_ne_of_length (by simp [List.length_append, hblen]; omega))]
    rw [alookup_cons_ne _ _ _ _ (append_singleton_ne _ _ _ (by decide))]
    exact hnomanifest
  have hr_wj : readUnder fs4 bundleDir ["bundle_manifest.json"]
      = some (multiPackInternalManifest ps pack_ids outs) := by
    simp only [readUnder, h4]
    rw [alookup_cons_ne _ _ _ _
      (path_ne_of_length (by simp [List.length_append, hblen]; omega))]
    exact alookup_cons_self _ _ _
  have hdec : decodeWrapperDirs (multiPackInternalManifest ps pack_ids outs)
      = some ids := by
    unfold decodeWrapperDirs
    rw [show jlookup (multiPackInternalManifest ps pack_ids outs) "packs"
      = some (JVal.jarr outs) from rfl]
    exact houts
  have hagree : ∀ rel, 2 ≤ rel.length →
      readUnder fs4 bundleDir rel = readUnder fs2 bundleDir rel := by
    intro rel h2
    simp only [readUnder, h4]
    have hne2 : bundleDir ++ rel ≠ bundleDir ++ ["bundle_manifest.json"] := by
      intro hcontra
      have hrel := (List.append_right_inj bundleDir).1 hcontra
      rw [hrel] at h2
      simp at h2
    rw [alookup_cons_ne _ _ _ _
      (path_ne_of_length (by simp [List.length_append, hblen]; omega))]
    rw [alookup_cons_ne _ _ _ _ hne2]
  unfold verify_bundle_integrity
  rw [hr_mj]
  dsimp only
  rw [hr_wj]
  dsimp only
  rw [hdec]
  dsimp only
  exact hsubs fs4 hagree

/-- C1, pack-set modes: every bundle a successful `_build_bundles_from_pack_set`
run reports passes the folder-form verifier afterwards, and in per-pack mode
the zip of each bundle directory passes the zip-form verifier with the
build's secret. -/
theorem c1_pack_set_verifies (env : CliEnv) (args : CliArgs)
    (sec : Option String) (manifestPath : Path) (fs : Fs)
    (hfs : fs.files = [])
    (hmp : manifestPath.length ≤ 2)
    (hok : (buildBundlesFromPackSet env args sec manifestPath fs).exit
      = Except.ok 0) :
    (∀ r ∈ (buildBundlesFromPackSet env args sec manifestPath fs).results,
      cmdOtaVerifyFolder env
        (buildBundlesFromPackSet env args sec manifestPath fs).fs
        r.bundle_dir = 0)
    ∧ (args.multi_pack = false →
        ∀ r ∈ (buildBundlesFromPackSet env args sec manifestPath fs).results,
          verify_zip_bundle env
            (zipOfDir (buildBundlesFromPackSet env args sec manifestPath fs).fs
              r.bundle_dir) sec
          = Except.ok ()) := by
  revert hok
  unfold buildBundlesFromPackSet
  dsimp only
  cases hload : (if truthy args.dance_pack_set_path
      then env.loadSetFromFile (args.dance_pack_set_path.getD "")
      else env.loadSetById (args.dance_pack_set.getD "")) with
  | error e => dsimp only; intro hok; simp at hok
  | ok ps =>
    dsimp only
    cases hval : validateSetRefs env ps.packs with
    | error e => dsimp only; intro hok; simp at hok
    | ok u =>
      dsimp only
      cases hsd : get_pack_defaults_from_set env ps with
      | error e => dsimp only; intro hok; simp at hok
      | ok sd =>
        dsimp only
        cases hmz : args.multi_pack with
        | false =>
          simp only [Bool.false_eq_true, if_false]
          rcases hloop : perPackLoop env args.zip sec [args.out]
              (fs.mkdirP [args.out]) sd.packs with ⟨fs2, r2⟩
          cases r2 with
          | error e => dsimp only; intro hok; simp at hok
          | ok pr =>
            obtain ⟨outs, ress⟩ := pr
            dsimp only
            intro hok
            obtain ⟨imono, ipres, ilen, iress⟩ :=
              perPackLoop_ok_invariant env args.zip sec [args.out] sd.packs
                (fs.mkdirP [args.out]) fs2 outs ress hloop
            constructor
            · intro r hr
              obtain ⟨hmem2, hlen2, hbv, hzv⟩ := iress r hr
              have hle : manifestPath.length ≤ r.bundle_dir.length := by
                rw [hlen2]
                simpa using hmp
              apply bundleVerifies_folder_ok
              exact bundleVerifies_congr env fs2 _ r.bundle_dir
                (readUnder_write_shallow fs2 manifestPath _ r.bundle_dir hle)
                hbv
            · intro hmulti r hr
              obtain ⟨hmem2, hlen2, hbv, hzv⟩ := iress r hr
              have hle : manifestPath.length ≤ r.bundle_dir.length := by
                rw [hlen2]
                simpa using hmp
              rw [zipOfDir_write_not_under fs2 manifestPath _ r.bundle_dir
                (not_underDir_shallow r.bundle_dir manifestPath hle)]
              exact hzv
        | true =>
          simp only [if_true]
          unfold buildMultiPackBundle
          dsimp only
          rcases hloop : multiPackLoop env sec
              ([args.out] ++ ["ota_bundle__" ++ ps.id])
              ((fs.mkdirP [args.out]).mkdirP
                ([args.out] ++ ["ota_bundle__" ++ ps.id]))
              sd.packs with ⟨fs2, r2⟩
          cases r2 with
          | error e => dsimp only; intro hok; simp at hok
          | ok pr =>
            obtain ⟨outs, ress⟩ := pr
            dsimp only
            intro hok
            obtain ⟨imono, ipres, ilen, iouts, isubs⟩ :=
              multiPackLoop_ok_invariant env sec
                ([args.out] ++ ["ota_bundle__" ++ ps.id]) sd.packs
                ((fs.mkdirP [args.out]).mkdirP
                  ([args.out] ++ ["ota_bundle__" ++ ps.id]))
                fs2 outs ress hloop
            have hblen : ([args.out] ++ ["ota_bundle__" ++ ps.id]).length = 2 := by
              simp
            have hnoman : alookup fs2.files
                (([args.out] ++ ["ota_bundle__" ++ ps.id])
                  ++ ["manifest.json"]) = none := by
              rw [ilen _ (by simp [List.length_append])]
              rw [mkdirP_files, mkdirP_files, hfs]
              rfl
            refine ⟨?_, ?_⟩
            · intro r hr
              cases hz : args.zip with
              | false =>
                simp only [hz, Bool.false_eq_true, if_false] at hr ⊢
                rcases List.mem_cons.1 hr with rfl | hfalse
                · unfold cmdOtaVerifyFolder
                  rw [multi_wrapper_integrity env sec _ fs2 _ outs ps
                    (List.map (fun b => b.pack_id) sd.packs)
                    (List.map (fun b => b.pack_id) sd.packs)
                    manifestPath _ iouts isubs hnoman (by rfl) hmp hblen]
                · exact absurd hfalse (List.not_mem_nil r)
              | true =>
                simp only [hz, if_true] at hr ⊢
                rcases List.mem_cons.1 hr with rfl | hfalse
                · unfold cmdOtaVerifyFolder
                  rw [multi_wrapper_integrity env sec _ fs2 _ outs ps
                    (List.map (fun b => b.pack_id) sd.packs)
                    (List.map (fun b => b.pack_id) sd.packs)
                    manifestPath _ iouts isubs hnoman (by rfl) hmp hblen]
                · exact absurd hfalse (List.not_mem_nil r)
            · intro hmulti
              exact absurd hmulti (by decide)

/-- C1 (amended): on a fresh filesystem, every bundle a successful
`ota-bundle` run reports verifies in folder form afterwards; outside the
multi-pack combined mode, zipping any reported bundle directory also passes
the zip-form verifier with the build's secret. -/
theorem c1_amended_fresh_bundle_verification (env : CliEnv) (args : CliArgs)
    (fs : Fs) (sec : Option String)
    (hfs : fs.files = [])
    (hsec : resolveSecret env args = Except.ok sec)
    (hok : (cmdOtaBundle env args fs).exit = Except.ok 0) :
    (∀ r ∈ (cmdOtaBundle env args fs).results,
      cmdOtaVerifyFolder env (cmdOtaBundle env args fs).fs r.bundle_dir = 0)
    ∧ (args.multi_pack = false →
        ∀ r ∈ (cmdOtaBundle env args fs).results,
          verify_zip_bundle env
            (zipOfDir (cmdOtaBundle env args fs).fs r.bundle_dir) sec
          = Except.ok ()) := by
  revert hok
  unfold cmdOtaBundle
  cases hsec2 : resolveSecret env args with
  | error e =>
    rw [hsec2] at hsec
    simp at hsec
  | ok s =>
    rw [hsec2] at hsec
    obtain rfl : s = sec := Except.ok.inj hsec
    dsimp only
    by_cases hcnt : 1 < ([truthy args.session, truthy args.dance_pack_set,
      truthy args.dance_pack_set_path].count true)
    · rw [if_pos hcnt]
      intro hok
      simp at hok
    · rw [if_neg hcnt]
      by_cases hps : (truthy args.dance_pack_set
          || truthy args.dance_pack_set_path) = true
      · rw [if_pos hps]
        intro hok
        exact c1_pack_set_verifies env args s
          (match args.manifest with
            | some m => ([m] : Path)
            | none => [args.out] ++ ["ota_manifest.json"])
          (fs.mkdirP [args.out])
          (by rw [mkdirP_files]; exact hfs)
          (by cases args.manifest <;> simp) hok
      · rw [if_neg hps]
        by_cases hses : (!truthy args.session) = true
        · rw [if_pos hses]
          intro hok
          simp at hok
        · rw [if_neg hses]
          cases hrf : env.readFile (args.session.getD "") with
          | none => dsimp only; intro hok; simp at hok
          | some txt =>
            dsimp only
            cases hsa : env.sessionAssignment txt with
            | error e => dsimp only; intro hok; simp at hok
            | ok assignment =>
              dsimp only
              cases hbuild : build_assignment_ota_bundle env
                  (fs.mkdirP [args.out]) assignment [args.out]
                  (args.name.getD "ota_bundle") args.zip s with
              | error e => dsimp only; intro hok; simp at hok
              | ok pr =>
                obtain ⟨fs2, res⟩ := pr
                dsimp only
                intro hok
                obtain ⟨hdir, hmem, hfiles, hdirs, hzip⟩ :=
                  build_ok_spec env (fs.mkdirP [args.out]) assignment
                    [args.out] (args.name.getD "ota_bundle") args.zip s
                    fs2 res hbuild
                have hlen2 : res.bundle_dir.length = 2 := by
                  rw [hdir]
                  simp
                have hle : (match args.manifest with
                    | some m => ([m] : Path)
                    | none => [args.out] ++ ["ota_manifest.json"]).length
                    ≤ res.bundle_dir.length := by
                  rw [hlen2]
                  cases args.manifest <;> simp
                constructor
                · intro r hr
                  rcases List.mem_cons.1 hr with rfl | hf
                  · apply bundleVerifies_folder_ok
                    exact bundleVerifies_congr env fs2 _ r.bundle_dir
                      (readUnder_write_shallow fs2 _ _ r.bundle_dir hle)
                      (build_bundleVerifies env (fs.mkdirP [args.out])
                        assignment [args.out] (args.name.getD "ota_bundle")
                        args.zip s fs2 r hbuild)
                  · exact absurd hf (List.not_mem_nil r)
                · intro hmulti r hr
                  rcases List.mem_cons.1 hr with rfl | hf
                  · rw [zipOfDir_write_not_under fs2 _ _ r.bundle_dir
                      (not_underDir_shallow r.bundle_dir _ hle)]
                    exact build_zip_verifies env (fs.mkdirP [args.out])
                      assignment [args.out] (args.name.getD "ota_bundle")
                      args.zip s fs2 r hbuild
                  · exact absurd hf (List.not_mem_nil r)

/-- C1 (counterexample): a multi-pack `--zip` build of the sample set exits 0
and leaves its combined bundle untouched, yet the zip-form verifier rejects
the one archive the run produced with `MANIFEST_AMBIGUOUS`, because the
archive holds a `manifest.json` inside each sub-bundle and none at its
root. -/
theorem c1_counterexample :
    (cmdOtaBundle sampleEnv argsMultiZip Fs.empty).exit = Except.ok 0
    ∧ ((cmdOtaBundle sampleEnv argsMultiZip Fs.empty).results.map
        (fun r => r.zip_path))
      = [some ["out", "ota_bundle__groove_foundations_v1.zip"]]
    ∧ ((cmdOtaBundle sampleEnv argsMultiZip Fs.empty).fs.zips.map
        (fun z => verify_zip_bundle sampleEnv z.2 none))
      = [Except.error VerifyFail.manifestAmbiguous] :=
  ⟨rfl, rfl, rfl⟩

/-- C1 (witness for the amended theorem): a fresh per-pack build of the
sample set yields bundles that pass the folder verifier, and zipping each
reported bundle directory passes the zip verifier. -/
theorem c1_amended_fresh_bundle_verification_witness :
    (∀ r ∈ (cmdOtaBundle sampleEnv argsPerPack Fs.empty).results,
      cmdOtaVerifyFolder sampleEnv (cmdOtaBundle sampleEnv argsPerPack Fs.empty).fs
        r.bundle_dir = 0)
    ∧ (argsPerPack.multi_pack = false →
        ∀ r ∈ (cmdOtaBundle sampleEnv argsPerPack Fs.empty).results,
          verify_zip_bundle sampleEnv
            (zipOfDir (cmdOtaBundle sampleEnv argsPerPack Fs.empty).fs
              r.bundle_dir) none
          = Except.ok ()) :=
  c1_amended_fresh_bundle_verification sampleEnv argsPerPack Fs.empty none
    rfl rfl rfl

end SgSpec
